import Mathlib

/-!
Verification development for the CelestialSword2 donation tracker
(`bot/donation_tracker.py`).  The definitions below are a shallow embedding
of the tracker's pure logic: the regex-based amount extractor
(`parse_donation_message`), the attribution step of
`process_donation_message`, the ledger operations `add_donation` and
`cleanup_expired_weeks`, and the load-time migration in `load_donations` /
`load_registered_players`.
-/

/-- ASCII decimal digit test, modelling the `\d` character class used by the
tracker's regular expressions (Python `re` on ASCII text). -/
def isDigitC (c : Char) : Bool := '0' ≤ c && c ≤ '9'

/-- Whitespace test, modelling `\s` for the ASCII whitespace characters. -/
def isSpaceC (c : Char) : Bool :=
  c = ' ' || c = '\t' || c = '\n' || c = '\r' || c = '\x0b' || c = '\x0c'

/-- ASCII lower-casing of one character, modelling `str.lower()` on the
ASCII message text the patterns target. -/
def toLowerC (c : Char) : Char :=
  if 'A' ≤ c && c ≤ 'Z' then Char.ofNat (c.toNat + 32) else c

/-- String literal to character list. -/
def strL (s : String) : List Char := s.toList

/-- `isPfx l s` holds when `l` is a leading segment of `s` (used for literal
fragments of the regular expressions and for Python's `in` test). -/
def isPfx : List Char → List Char → Bool
  | [], _ => true
  | _ :: _, [] => false
  | a :: l, b :: s => a = b && isPfx l s

/-- `containsSub l s` models Python's substring test `l in s`. -/
def containsSub : List Char → List Char → Bool
  | l, [] => isPfx l []
  | l, c :: t => isPfx l (c :: t) || containsSub l t

/-- First successful application of `f` along a list, modelling the
backtracking order of the regex engine: candidates are tried in order and
the first one whose continuation succeeds wins. -/
def firstSome : List α → (α → Option β) → Option β
  | [], _ => none
  | a :: l, f =>
    match f a with
    | some b => some b
    | none => firstSome l f

/-- Token alphabet of the tracker's donation regexes.  Every pattern in
`parse_donation_message` is a flat sequence of: a literal fragment, `\s+`,
the capture group `(\d+(?:,\d+)*)`, an optional character (`s?`), or the
lazy gap `.*?`. -/
inductive Tok where
  | lit : List Char → Tok
  | ws : Tok
  | cap : Tok
  | optC : Char → Tok
  | dotStarLazy : Tok
deriving DecidableEq

/-- Re-render a parsed comma-group tail: `renderTail [g2, g3] r`
is `,g2,g3` followed by `r`. -/
def renderTail : List (List Char) → List Char → List Char
  | [], r => r
  | g :: gs, r => ',' :: (g ++ renderTail gs r)

/-- Candidates of the sub-regex `(?:,\d+)*` in Python backtracking order
(greedy: iterate first, inner `\d+` longest first), given that the input
remaining at this point is `renderTail gs r`.  Each candidate is the pair
(captured extension, rest of input). -/
def starAll : List (List Char) → List Char → List (List Char × List Char)
  | [], r => [([], r)]
  | g :: gs, r =>
    ((starAll gs r).map (fun p => (',' :: (g ++ p.1), p.2)))
      ++ ((List.range (g.length - 1)).map (fun i =>
            (',' :: g.take (g.length - 1 - i),
             g.drop (g.length - 1 - i) ++ renderTail gs r)))
      ++ [([], ',' :: (g ++ renderTail gs r))]

/-- Candidates of the full capture group `\d+(?:,\d+)*` in Python
backtracking order, given the maximal group decomposition `g1, gs` of the
input and the rest `r`. -/
def capCandsFrom (g1 : List Char) (gs : List (List Char)) (r : List Char) :
    List (List Char × List Char) :=
  ((starAll gs r).map (fun p => (g1 ++ p.1, p.2)))
    ++ ((List.range (g1.length - 1)).map (fun i =>
          (g1.take (g1.length - 1 - i),
           g1.drop (g1.length - 1 - i) ++ renderTail gs r)))

/-- Parse the maximal run of `,⟨digits⟩` groups from the input (the fuel
argument only bounds the recursion; each step consumes at least two
characters, so `fuel = length` is always enough). -/
def tailGroups : Nat → List Char → List (List Char) × List Char
  | 0, r => ([], r)
  | Nat.succ fuel, r =>
    match r with
    | ',' :: r2 =>
      let g := r2.takeWhile isDigitC
      if g.isEmpty then ([], r)
      else
        let p := tailGroups fuel (r2.drop g.length)
        (g :: p.1, p.2)
    | _ => ([], r)

/-- All matches of the capture group `(\d+(?:,\d+)*)` anchored at the start
of `s`, as (capture, rest) pairs in Python backtracking preference order. -/
def capCands (s : List Char) : List (List Char × List Char) :=
  let g := s.takeWhile isDigitC
  if g.isEmpty then []
  else
    let p := tailGroups s.length (s.drop g.length)
    capCandsFrom g p.1 p.2

/-- Candidate rests of the lazy gap `.*?` (shortest first, never crossing a
newline, as Python's `.` does not match `\n`). -/
def lazyCands : List Char → List (List Char)
  | [] => [[]]
  | c :: t => (c :: t) :: (if c = '\n' then [] else lazyCands t)

/-- Candidate rests of `\s+` (longest whitespace run first — greedy). -/
def wsCands (s : List Char) : List (List Char) :=
  let r := s.takeWhile isSpaceC
  (List.range r.length).map (fun i => s.drop (r.length - i))

/-- Backtracking matcher for a token sequence anchored at the start of the
input; returns the list of captured groups on success.  This is the
semantics of Python `re` restricted to the constructs the tracker's
patterns use. -/
def reMatch : List Tok → List Char → Option (List (List Char))
  | [], _ => some []
  | Tok.lit l :: ts, s => if isPfx l s then reMatch ts (s.drop l.length) else none
  | Tok.ws :: ts, s => firstSome (wsCands s) (fun t => reMatch ts t)
  | Tok.optC c :: ts, s =>
    match s with
    | [] => reMatch ts []
    | c' :: t =>
      if c' = c then
        match reMatch ts t with
        | some v => some v
        | none => reMatch ts (c' :: t)
      else reMatch ts (c' :: t)
  | Tok.dotStarLazy :: ts, s => firstSome (lazyCands s) (fun t => reMatch ts t)
  | Tok.cap :: ts, s =>
    firstSome (capCands s) (fun p => (reMatch ts p.2).map (fun cs => p.1 :: cs))

/-- `re.search` over the token sequence: try every start position from the
left, returning the captures of the leftmost match. -/
def searchToks (p : List Tok) : List Char → Option (List (List Char))
  | [] => reMatch p []
  | c :: t =>
    match reMatch p (c :: t) with
    | some v => some v
    | none => searchToks p t

/-- Pattern 1: `donated\s+\*\*(\d+(?:,\d+)*)\*\*\s+gold`. -/
def pat1 : List Tok :=
  [Tok.lit (strL "donated"), Tok.ws, Tok.lit (strL "**"), Tok.cap,
   Tok.lit (strL "**"), Tok.ws, Tok.lit (strL "gold")]

/-- Pattern 2: `you have donated\s+\*\*(\d+(?:,\d+)*)\*\*\s+gold`. -/
def pat2 : List Tok :=
  [Tok.lit (strL "you have donated"), Tok.ws, Tok.lit (strL "**"), Tok.cap,
   Tok.lit (strL "**"), Tok.ws, Tok.lit (strL "gold")]

/-- Pattern 3: `donated\s+(\d+(?:,\d+)*)\s+coins?`. -/
def pat3 : List Tok :=
  [Tok.lit (strL "donated"), Tok.ws, Tok.cap, Tok.ws, Tok.lit (strL "coin"),
   Tok.optC 's']

/-- Pattern 4: `contributed\s+(\d+(?:,\d+)*)\s+coins?`. -/
def pat4 : List Tok :=
  [Tok.lit (strL "contributed"), Tok.ws, Tok.cap, Tok.ws,
   Tok.lit (strL "coin"), Tok.optC 's']

/-- Pattern 5: `gave\s+(\d+(?:,\d+)*)\s+coins?`. -/
def pat5 : List Tok :=
  [Tok.lit (strL "gave"), Tok.ws, Tok.cap, Tok.ws, Tok.lit (strL "coin"),
   Tok.optC 's']

/-- Pattern 6: `(\d+(?:,\d+)*)\s+coins?\s+donated`. -/
def pat6 : List Tok :=
  [Tok.cap, Tok.ws, Tok.lit (strL "coin"), Tok.optC 's', Tok.ws,
   Tok.lit (strL "donated")]

/-- Pattern 7: `(\d+(?:,\d+)*)\s+coins?\s+to\s+the\s+clan`. -/
def pat7 : List Tok :=
  [Tok.cap, Tok.ws, Tok.lit (strL "coin"), Tok.optC 's', Tok.ws,
   Tok.lit (strL "to"), Tok.ws, Tok.lit (strL "the"), Tok.ws,
   Tok.lit (strL "clan")]

/-- Pattern 8: `clan donation.*?(\d+(?:,\d+)*)`. -/
def pat8 : List Tok :=
  [Tok.lit (strL "clan donation"), Tok.dotStarLazy, Tok.cap]

/-- Pattern 9: `(\d+(?:,\d+)*)\s+coins?\s+added\s+to\s+clan`. -/
def pat9 : List Tok :=
  [Tok.cap, Tok.ws, Tok.lit (strL "coin"), Tok.optC 's', Tok.ws,
   Tok.lit (strL "added"), Tok.ws, Tok.lit (strL "to"), Tok.ws,
   Tok.lit (strL "clan")]

/-- Pattern 10: `clan\s+treasury.*?(\d+(?:,\d+)*)`. -/
def pat10 : List Tok :=
  [Tok.lit (strL "clan"), Tok.ws, Tok.lit (strL "treasury"),
   Tok.dotStarLazy, Tok.cap]

/-- Pattern 11: `(\d+(?:,\d+)*)\s+coins?\s+clan\s+donation`. -/
def pat11 : List Tok :=
  [Tok.cap, Tok.ws, Tok.lit (strL "coin"), Tok.optC 's', Tok.ws,
   Tok.lit (strL "clan"), Tok.ws, Tok.lit (strL "donation")]

/-- Pattern 12: `deposited\s+(\d+(?:,\d+)*)\s+coins?`. -/
def pat12 : List Tok :=
  [Tok.lit (strL "deposited"), Tok.ws, Tok.cap, Tok.ws,
   Tok.lit (strL "coin"), Tok.optC 's']

/-- Pattern 13: `(\d+(?:,\d+)*)\s+coins?\s+deposited`. -/
def pat13 : List Tok :=
  [Tok.cap, Tok.ws, Tok.lit (strL "coin"), Tok.optC 's', Tok.ws,
   Tok.lit (strL "deposited")]

/-- Pattern 14: `(\d+(?:,\d+)*)\s+rubies?\s+donated`. -/
def pat14 : List Tok :=
  [Tok.cap, Tok.ws, Tok.lit (strL "rubie"), Tok.optC 's', Tok.ws,
   Tok.lit (strL "donated")]

/-- Pattern 15: `donated\s+(\d+(?:,\d+)*)\s+rubies?`. -/
def pat15 : List Tok :=
  [Tok.lit (strL "donated"), Tok.ws, Tok.cap, Tok.ws, Tok.lit (strL "rubie"),
   Tok.optC 's']

/-- Pattern 16: `(\d+(?:,\d+)*)\s+rubies?\s+to\s+the\s+clan`. -/
def pat16 : List Tok :=
  [Tok.cap, Tok.ws, Tok.lit (strL "rubie"), Tok.optC 's', Tok.ws,
   Tok.lit (strL "to"), Tok.ws, Tok.lit (strL "the"), Tok.ws,
   Tok.lit (strL "clan")]

/-- Pattern 17: `(\d+(?:,\d+)*)\s+rubies?\s+added\s+to\s+clan`. -/
def pat17 : List Tok :=
  [Tok.cap, Tok.ws, Tok.lit (strL "rubie"), Tok.optC 's', Tok.ws,
   Tok.lit (strL "added"), Tok.ws, Tok.lit (strL "to"), Tok.ws,
   Tok.lit (strL "clan")]

/-- The ordered pattern list of `parse_donation_message`. -/
def patterns : List (List Tok) :=
  [pat1, pat2, pat3, pat4, pat5, pat6, pat7, pat8, pat9, pat10, pat11,
   pat12, pat13, pat14, pat15, pat16, pat17]

/-- The `donation_keywords` pre-filter list of `parse_donation_message`. -/
def donationKeywords : List (List Char) :=
  [strL "donated", strL "donation", strL "contribute", strL "clan",
   strL "gave", strL "treasury", strL "deposited", strL "coins",
   strL "rubies"]

/-- Decimal value of a digit string (the value `int(...)` returns on it). -/
def digitsVal (s : List Char) : Nat :=
  s.foldl (fun a c => 10 * a + (c.toNat - 48)) 0

/-- Model of `int(amount_str)` restricted to the strings the capture group
can produce: succeeds exactly on non-empty all-digit strings. -/
def parseIntOpt (s : List Char) : Option Nat :=
  if s.isEmpty then none
  else if s.all isDigitC then some (digitsVal s) else none

/-- `amount_str.replace(",", "")` — drop every comma. -/
def stripCommas (s : List Char) : List Char := s.filter (fun c => !(c = ','))

/-- The pattern loop of `parse_donation_message`: try each pattern in
order; on a match parse `group(1)` with commas removed; on a parse failure
fall through to the next pattern (`continue`). -/
def tryPatterns : List (List Tok) → List Char → Option Nat
  | [], _ => none
  | p :: ps, cl =>
    match searchToks p cl with
    | some caps =>
      match parseIntOpt (stripCommas (caps.headD [])) with
      | some a => some a
      | none => tryPatterns ps cl
    | none => tryPatterns ps cl

/-- `parse_donation_message` (donation_tracker.py lines 181-226): lower-case
the content, reject unless some donation keyword occurs as a substring,
then return the first pattern's parsed capture. -/
def parse_donation_message (content : List Char) : Option Nat :=
  let cl := content.map toLowerC
  if donationKeywords.any (fun k => containsSub k cl) then
    tryPatterns patterns cl
  else none


/-- One recorded donation (`donation_record` in `add_donation`): amount and
timestamp.  Instants are modelled as integer seconds. -/
structure DonationRecord where
  amount : Nat
  timestamp : Int
deriving DecidableEq

/-- A player's rolling-window entry in `weekly_donations`. -/
structure WeeklyEntry where
  name : String
  amount : Nat
  donations : List DonationRecord
  week_start : Int
deriving DecidableEq

/-- A player's all-time entry in `total_donations`. -/
structure TotalEntry where
  name : String
  amount : Nat
  donations : List DonationRecord
deriving DecidableEq

/-- Per-guild data created by `add_donation`. -/
structure GuildData where
  weekly_donations : List (String × WeeklyEntry)
  total_donations : List (String × TotalEntry)
  last_reset : Option Int
deriving DecidableEq

/-- The in-memory `donations_data` store: guild id → guild data.  Python
dicts preserve insertion order, so they are modelled as association lists
with in-place update. -/
def Store : Type := List (String × GuildData)

/-- Dict lookup: first binding of the key, if any. -/
def alGet : List (String × α) → String → Option α
  | [], _ => none
  | (k', v) :: m, k => if k' = k then some v else alGet m k

/-- Dict update `d[k] = v`: replace the binding in place, or append a new
binding at the end (Python insertion-order semantics). -/
def alSet : List (String × α) → String → α → List (String × α)
  | [], k, v => [(k, v)]
  | (k', v') :: m, k, v =>
    if k' = k then (k', v) :: m else (k', v') :: alSet m k v

/-- `(now - anchor).days` for instants in seconds: Python `timedelta.days`
floors towards minus infinity. -/
def daysBetween (now anchor : Int) : Int := (now - anchor).fdiv 86400

/-- The empty guild record `add_donation` creates for a new guild. -/
def emptyGuild : GuildData :=
  { weekly_donations := [], total_donations := [], last_reset := none }

/-- `add_donation` (donation_tracker.py lines 228-286): lazily create the
guild and user entries, reset the weekly entry if its week expired
(`days >= 7`), then append the donation to both aggregates. -/
def add_donation (st : Store) (guild user name : String) (amount : Nat)
    (now : Int) : Store :=
  let gd := (alGet st guild).getD emptyGuild
  let weekly1 :=
    if (alGet gd.weekly_donations user).isSome then gd.weekly_donations
    else alSet gd.weekly_donations user
      { name := name, amount := 0, donations := [], week_start := now }
  let total1 :=
    if (alGet gd.total_donations user).isSome then gd.total_donations
    else alSet gd.total_donations user
      { name := name, amount := 0, donations := [] }
  let w0 := (alGet weekly1 user).getD
    { name := name, amount := 0, donations := [], week_start := now }
  let weekly2 :=
    if 7 ≤ daysBetween now w0.week_start then
      alSet weekly1 user
        { name := name, amount := 0, donations := [], week_start := now }
    else weekly1
  let w := (alGet weekly2 user).getD
    { name := name, amount := 0, donations := [], week_start := now }
  let weekly3 := alSet weekly2 user
    { w with amount := w.amount + amount,
             donations := w.donations ++ [⟨amount, now⟩] }
  let t := (alGet total1 user).getD
    { name := name, amount := 0, donations := [] }
  let total2 := alSet total1 user
    { t with amount := t.amount + amount,
             donations := t.donations ++ [⟨amount, now⟩] }
  alSet st guild
    { gd with weekly_donations := weekly3, total_donations := total2 }

/-- The per-guild body of `cleanup_expired_weeks`: delete each weekly
entry whose `days_elapsed >= 7` (i.e. keep those with `days < 7`); total
entries and `last_reset` are untouched. -/
def sweepGuild (now : Int) (gd : GuildData) : GuildData :=
  { gd with
      weekly_donations := gd.weekly_donations.filter
        (fun uw => daysBetween now uw.2.week_start < 7) }

/-- `cleanup_expired_weeks` (donation_tracker.py lines 378-405): sweep
every guild's weekly map; guild keys are untouched. -/
def cleanup_expired_weeks (st : Store) (now : Int) : Store :=
  st.map (fun gv => (gv.1, sweepGuild now gv.2))

/-- A ledger mutation: one `add_donation` call or one sweep. -/
inductive Op where
  | append (guild user name : String) (amount : Nat) (now : Int)
  | sweep (now : Int)
deriving DecidableEq

/-- Apply one operation to a store. -/
def applyOp (st : Store) : Op → Store
  | Op.append guild user name amount now =>
      add_donation st guild user name amount now
  | Op.sweep now => cleanup_expired_weeks st now

/-- Run a sequence of operations left to right. -/
def runOps (ops : List Op) (st : Store) : Store := ops.foldl applyOp st

/-- The append operations of `ops` that target player `(guild, user)`, as
(amount, timestamp) pairs in order. -/
def appendsFor (guild user : String) : List Op → List (Nat × Int)
  | [] => []
  | Op.append g u _ a n :: ops =>
    if g = guild ∧ u = user then (a, n) :: appendsFor guild user ops
    else appendsFor guild user ops
  | Op.sweep _ :: ops => appendsFor guild user ops

/-- The total-aggregate running total of a player (0 when absent). -/
def totalAmountOf (st : Store) (guild user : String) : Nat :=
  match alGet st guild with
  | none => 0
  | some gd =>
    match alGet gd.total_donations user with
    | none => 0
    | some t => t.amount

/-- The total-aggregate event list of a player ([] when absent). -/
def totalEventsOf (st : Store) (guild user : String) : List DonationRecord :=
  match alGet st guild with
  | none => []
  | some gd =>
    match alGet gd.total_donations user with
    | none => []
    | some t => t.donations

/-- The weekly entry of a player, if present. -/
def weeklyOf (st : Store) (guild user : String) : Option WeeklyEntry :=
  match alGet st guild with
  | none => none
  | some gd => alGet gd.weekly_donations user

/-- Python `str.replace(pat, rep)` for a non-empty `pat`: left-to-right,
non-overlapping replacement of every occurrence. -/
def replaceAll (pat rep : List Char) (s : List Char) : List Char :=
  match s with
  | [] => []
  | c :: t =>
    if pat ≠ [] ∧ isPfx pat (c :: t) then
      rep ++ replaceAll pat rep (List.drop (pat.length - 1) t)
    else c :: replaceAll pat rep t
termination_by s.length
decreasing_by
· simp only [List.length_cons]
  have := List.length_drop (pat.length - 1) t
  omega
· simp only [List.length_cons]; omega

/-- Python `str.strip()`: drop ASCII whitespace from both ends. -/
def stripWs (s : List Char) : List Char :=
  ((s.dropWhile isSpaceC).reverse.dropWhile isSpaceC).reverse

/-- The name normalisation in the fallback search of
`process_donation_message`:
`player_name.replace("⚔️", "").replace("  ", " ").strip()`. -/
def clean_player_name (n : List Char) : List Char :=
  stripWs (replaceAll (strL "  ") (strL " ")
    (replaceAll ['⚔', '️'] [] n))

/-- Lower-case a character list (`str.lower()`). -/
def lowerL (s : List Char) : List Char := s.map toLowerC

/-- The attribution step of `process_donation_message` (donation_tracker.py
lines 137-167), given the guild's registered directory, the mention list
and the searchable text: first record one donation per registered
mentioned user (in mention order); only if none was recorded, attribute to
the first registered player whose cleaned name occurs case-insensitively
in the searchable text.  Returns the `(user_id, player_name)` pairs passed
to `add_donation`, in call order. -/
def process_attributions (reg : List (String × String))
    (mentions : List String) (searchText : List Char) :
    List (String × String) :=
  let mentionHits := mentions.filterMap
    (fun u => (alGet reg u).map (fun nm => (u, nm)))
  if mentionHits.isEmpty then
    match reg.find? (fun unm =>
        containsSub (lowerL (clean_player_name (strL unm.2)))
          (lowerL searchText)) with
    | some unm => [unm]
    | none => []
  else mentionHits

/-- Untyped JSON-like documents, for the persistence layer. -/
inductive Json where
  | obj : List (String × Json) → Json
  | arr : List Json → Json
  | str : String → Json
  | num : Int → Json
  | bool : Bool → Json
  | null : Json

/-- `str(k).isdigit() and len(str(k)) > 10` — the "looks like a guild id"
test of the migration checks. -/
def isLongNumericKey (k : String) : Bool :=
  (k.toList.all isDigitC && !k.toList.isEmpty) && 10 < k.toList.length

/-- The migration step of `load_donations` (donation_tracker.py lines
17-32): wrap the whole document under the synthetic guild key "0" when it
has a top-level "weekly_donations" key and no key looks like a guild id. -/
def load_donations_migrate (d : List (String × Json)) :
    List (String × Json) :=
  if (alGet d "weekly_donations").isSome
      && !(d.any (fun kv => isLongNumericKey kv.1)) then
    [("0", Json.obj d)]
  else d

/-- The migration step of `load_registered_players` (donation_tracker.py
lines 34-49): wrap when the document is non-empty and no key looks like a
guild id. -/
def load_players_migrate (d : List (String × Json)) :
    List (String × Json) :=
  if !d.isEmpty && !(d.any (fun kv => isLongNumericKey kv.1)) then
    [("0", Json.obj d)]
  else d

/-- JSON encoding of a donation record, as `save_donations` writes it. -/
def recordToJson (r : DonationRecord) : Json :=
  Json.obj [("amount", Json.num (Int.ofNat r.amount)),
            ("timestamp", Json.num r.timestamp)]

/-- JSON encoding of a weekly entry. -/
def weeklyToJson (w : WeeklyEntry) : Json :=
  Json.obj [("name", Json.str w.name),
            ("amount", Json.num (Int.ofNat w.amount)),
            ("donations", Json.arr (w.donations.map recordToJson)),
            ("week_start", Json.num w.week_start)]

/-- JSON encoding of a total entry. -/
def totalToJson (t : TotalEntry) : Json :=
  Json.obj [("name", Json.str t.name),
            ("amount", Json.num (Int.ofNat t.amount)),
            ("donations", Json.arr (t.donations.map recordToJson))]

/-- JSON encoding of a guild's ledger data. -/
def guildToJson (g : GuildData) : Json :=
  Json.obj
    [("weekly_donations",
      Json.obj (g.weekly_donations.map (fun uw => (uw.1, weeklyToJson uw.2)))),
     ("total_donations",
      Json.obj (g.total_donations.map (fun ut => (ut.1, totalToJson ut.2)))),
     ("last_reset",
      match g.last_reset with
      | none => Json.null
      | some t => Json.num t)]

/-- The document `save_donations` writes for a store (`json.dump` of
`donations_data`). -/
def storeToJson (st : Store) : List (String × Json) :=
  st.map (fun gv => (gv.1, guildToJson gv.2))

/-- The data access `self.donations_data["weekly_donations"]` that opens
`generate_weekly_report` (donation_tracker.py line 331): `none` models the
`KeyError` Python raises when the key is absent. -/
def weekly_report_data (d : List (String × Json)) : Option Json :=
  alGet d "weekly_donations"

/-- Digit-or-comma test: the characters the capture group can consume. -/
def isDigitComma (c : Char) : Bool := isDigitC c || c = ','

/-- A well-formed thousands-grouped numeral: a non-empty leading digit
group and a list of further non-empty digit groups. -/
def NumOK (g : List Char) (gs : List (List Char)) : Prop :=
  g ≠ [] ∧ (∀ c ∈ g, isDigitC c = true) ∧
    ∀ d ∈ gs, d ≠ [] ∧ ∀ c ∈ d, isDigitC c = true

/-- Render a grouped numeral, e.g. `renderNum "1" ["234", "567"]`
is `1,234,567`. -/
def renderNum (g : List Char) (gs : List (List Char)) : List Char :=
  g ++ renderTail gs []

/-- The guild an operation writes to (`none` for a sweep, which touches
every guild but creates none). -/
def opGuild : Op → Option String
  | Op.append g _ _ _ _ => some g
  | Op.sweep _ => none

theorem alGet_alSet_self (m : List (String × α)) (k : String) (v : α) :
    alGet (alSet m k v) k = some v := by
  induction m with
  | nil => simp [alSet, alGet]
  | cons kv m ih =>
    obtain ⟨k', v'⟩ := kv
    by_cases h : k' = k
    · simp [alSet, alGet, h]
    · simp [alSet, alGet, h, ih]

theorem alGet_alSet_ne (m : List (String × α)) (k k' : String) (v : α)
    (h : k ≠ k') : alGet (alSet m k v) k' = alGet m k' := by
  induction m with
  | nil => simp [alSet, alGet, h]
  | cons kv m ih =>
    obtain ⟨k0, v0⟩ := kv
    by_cases h0 : k0 = k
    · simp [alSet, alGet, h0, h]
    · by_cases h1 : k0 = k'
      · simp [alSet, alGet, h0, h1, Ne.symm h]
      · simp [alSet, alGet, h0, h1, ih]

theorem daysBetween_ge7_iff (now a : Int) :
    7 ≤ daysBetween now a ↔ 7 * 86400 ≤ now - a := by
  unfold daysBetween
  rw [Int.fdiv_eq_ediv _ (by norm_num)]
  exact Int.le_ediv_iff_mul_le (by norm_num)

/-- C2: an `add_donation` strictly inside the player's 7-day window grows
the existing weekly entry (same anchor, total increased by the amount, the
new event appended), while an `add_donation` at 7 days (7d0h) or later
first resets the window and then appends, leaving the new donation as the
window's sole event with anchor `now`. -/
theorem C2_append_window_anchor_correct
    (st : Store) (guild user name : String) (amount : Nat) (now a : Int)
    (gd : GuildData) (w : WeeklyEntry)
    (hg : alGet st guild = some gd)
    (hw : alGet gd.weekly_donations user = some w)
    (ha : w.week_start = a) :
    (now - a < 7 * 86400 →
      weeklyOf (add_donation st guild user name amount now) guild user =
        some { w with amount := w.amount + amount,
                      donations := w.donations ++ [⟨amount, now⟩] }) ∧
    (7 * 86400 ≤ now - a →
      weeklyOf (add_donation st guild user name amount now) guild user =
        some { name := name, amount := amount,
               donations := [⟨amount, now⟩], week_start := now }) := by
  have hday : (7 ≤ daysBetween now w.week_start) ↔ 7 * 86400 ≤ now - a := by
    rw [ha]; exact daysBetween_ge7_iff now a
  constructor
  · intro hlt
    have hnot : ¬ 7 ≤ daysBetween now w.week_start := by
      rw [hday]; omega
    simp only [add_donation, weeklyOf, hg, Option.getD_some, hw,
      Option.isSome_some, if_true, hnot, if_false, alGet_alSet_self,
      Option.getD_some, Option.some.injEq]
  · intro hge
    have hyes : 7 ≤ daysBetween now w.week_start := by rw [hday]; exact hge
    simp only [add_donation, weeklyOf, hg, Option.getD_some, hw,
      Option.isSome_some, if_true, hyes, alGet_alSet_self,
      Option.getD_some, Option.some.injEq]
    simp

theorem C2_append_window_anchor_correct_witness :
    (weeklyOf (add_donation
        [("g", { weekly_donations :=
                   [("u", { name := "alice", amount := 5,
                            donations := [⟨5, 0⟩], week_start := 0 })],
                 total_donations := [], last_reset := none })]
        "g" "u" "alice" 3 604799) "g" "u" =
      some { name := "alice", amount := 8,
             donations := [⟨5, 0⟩, ⟨3, 604799⟩], week_start := 0 }) ∧
    (weeklyOf (add_donation
        [("g", { weekly_donations :=
                   [("u", { name := "alice", amount := 5,
                            donations := [⟨5, 0⟩], week_start := 0 })],
                 total_donations := [], last_reset := none })]
        "g" "u" "alice" 3 604800) "g" "u" =
      some { name := "alice", amount := 3,
             donations := [⟨3, 604800⟩], week_start := 604800 }) := by
  constructor
  · exact (C2_append_window_anchor_correct
      [("g", { weekly_donations :=
                 [("u", { name := "alice", amount := 5,
                          donations := [⟨5, 0⟩], week_start := 0 })],
               total_donations := [], last_reset := none })]
      "g" "u" "alice" 3 604799 0
      { weekly_donations :=
          [("u", { name := "alice", amount := 5,
                   donations := [⟨5, 0⟩], week_start := 0 })],
        total_donations := [], last_reset := none }
      { name := "alice", amount := 5, donations := [⟨5, 0⟩], week_start := 0 }
      rfl rfl rfl).1 (by norm_num)
  · exact (C2_append_window_anchor_correct
      [("g", { weekly_donations :=
                 [("u", { name := "alice", amount := 5,
                          donations := [⟨5, 0⟩], week_start := 0 })],
               total_donations := [], last_reset := none })]
      "g" "u" "alice" 3 604800 0
      { weekly_donations :=
          [("u", { name := "alice", amount := 5,
                   donations := [⟨5, 0⟩], week_start := 0 })],
        total_donations := [], last_reset := none }
      { name := "alice", amount := 5, donations := [⟨5, 0⟩], week_start := 0 }
      rfl rfl rfl).2 (by norm_num)

theorem alGet_map_snd (m : List (String × α)) (f : α → β) (k : String) :
    alGet (m.map (fun kv => (kv.1, f kv.2))) k = (alGet m k).map f := by
  induction m with
  | nil => simp [alGet]
  | cons kv m ih =>
    obtain ⟨k0, v0⟩ := kv
    by_cases h : k0 = k
    · simp [alGet, h]
    · simp [alGet, h, ih]

theorem alGet_filter_of_none (m : List (String × α)) (p : String × α → Bool)
    (k : String) (h : alGet m k = none) :
    alGet (m.filter p) k = none := by
  induction m with
  | nil => simp [alGet]
  | cons kv m ih =>
    obtain ⟨k0, v0⟩ := kv
    by_cases h0 : k0 = k
    · simp [alGet, h0] at h
    · simp only [alGet, if_neg h0] at h
      simp only [List.filter]
      cases p (k0, v0) with
      | true => simp only [alGet, if_neg h0]; exact ih h
      | false => exact ih h

theorem alGet_eq_none_of_not_mem (m : List (String × α)) (k : String)
    (h : ¬ k ∈ m.map Prod.fst) : alGet m k = none := by
  induction m with
  | nil => rfl
  | cons kv m ih =>
    obtain ⟨k0, v0⟩ := kv
    simp only [List.map_cons, List.mem_cons, not_or] at h
    simp [alGet, Ne.symm h.1, ih h.2]

theorem alGet_filter_of_some (m : List (String × α)) (p : String × α → Bool)
    (k : String) (v : α) (hnd : (m.map Prod.fst).Nodup)
    (h : alGet m k = some v) :
    alGet (m.filter p) k = if p (k, v) then some v else none := by
  induction m with
  | nil => simp [alGet] at h
  | cons kv m ih =>
    obtain ⟨k0, v0⟩ := kv
    simp only [List.map_cons, List.nodup_cons] at hnd
    by_cases h0 : k0 = k
    · subst h0
      have hv : v0 = v := by simpa [alGet] using h
      subst hv
      by_cases hp : p (k0, v0) = true
      · simp [List.filter_cons, hp, alGet]
      · have hnone : alGet (m.filter p) k0 = none :=
          alGet_filter_of_none m p k0 (alGet_eq_none_of_not_mem m k0 hnd.1)
        simp only [Bool.not_eq_true] at hp
        simp [List.filter_cons, hp, hnone]
    · simp only [alGet, if_neg h0] at h
      simp only [List.filter]
      cases p (k0, v0) with
      | true => simp only [alGet, if_neg h0]; exact ih hnd.2 h
      | false => exact ih hnd.2 h

/-- C3 counterexample: the claim says a sweep at `now` resets an expired
window in place (entry still present, events cleared, anchor reassigned).
On this store the entry for "u" is expired (`7 <= days`), yet after
`cleanup_expired_weeks` the player has no weekly entry at all: the code
deletes the record instead of resetting it. -/
theorem C3_sweep_reset_in_place_counterexample :
    weeklyOf
        [("g", { weekly_donations :=
                   [("u", { name := "alice", amount := 5,
                            donations := [⟨5, 0⟩], week_start := 0 })],
                 total_donations := [], last_reset := none })] "g" "u" =
      some { name := "alice", amount := 5,
             donations := [⟨5, 0⟩], week_start := 0 } ∧
    7 ≤ daysBetween 604800 0 ∧
    weeklyOf
        (cleanup_expired_weeks
          [("g", { weekly_donations :=
                     [("u", { name := "alice", amount := 5,
                              donations := [⟨5, 0⟩], week_start := 0 })],
                   total_donations := [], last_reset := none })] 604800)
        "g" "u" = none := by
  refine ⟨rfl, by decide, by decide⟩

/-- C3 amended: after `cleanup_expired_weeks` at time `now`, every weekly
entry with `now - anchor >= 7` days is deleted outright (not reset in
place), every younger weekly entry is left unchanged, and no player's
total aggregate is modified by the sweep. -/
theorem C3_sweep_deletes_expired
    (st : Store) (now : Int) (guild user : String) (gd : GuildData)
    (hg : alGet st guild = some gd)
    (hnd : (gd.weekly_donations.map Prod.fst).Nodup) :
    (∀ w, alGet gd.weekly_donations user = some w →
        weeklyOf (cleanup_expired_weeks st now) guild user =
          (if daysBetween now w.week_start < 7 then some w else none)) ∧
    (alGet (cleanup_expired_weeks st now) guild).map
        GuildData.total_donations = some gd.total_donations := by
  have hmap :
      alGet (cleanup_expired_weeks st now) guild = some (sweepGuild now gd) := by
    unfold cleanup_expired_weeks
    rw [alGet_map_snd st (sweepGuild now) guild, hg]
    rfl
  constructor
  · intro w hw
    unfold weeklyOf
    rw [hmap]
    have := alGet_filter_of_some gd.weekly_donations
      (fun uw => decide (daysBetween now uw.2.week_start < 7)) user w hnd hw
    simp only [decide_eq_true_eq] at this
    simpa [sweepGuild] using this
  · rw [hmap]; rfl

theorem C3_sweep_deletes_expired_witness :
    (weeklyOf
        (cleanup_expired_weeks
          [("g", { weekly_donations :=
                     [("u", { name := "alice", amount := 5,
                              donations := [⟨5, 0⟩], week_start := 0 }),
                      ("v", { name := "bob", amount := 2,
                              donations := [⟨2, 400000⟩],
                              week_start := 400000 })],
                   total_donations :=
                     [("u", { name := "alice", amount := 5,
                              donations := [⟨5, 0⟩] })],
                   last_reset := none })] 604800) "g" "u" = none) ∧
    (weeklyOf
        (cleanup_expired_weeks
          [("g", { weekly_donations :=
                     [("u", { name := "alice", amount := 5,
                              donations := [⟨5, 0⟩], week_start := 0 }),
                      ("v", { name := "bob", amount := 2,
                              donations := [⟨2, 400000⟩],
                              week_start := 400000 })],
                   total_donations :=
                     [("u", { name := "alice", amount := 5,
                              donations := [⟨5, 0⟩] })],
                   last_reset := none })] 604800) "g" "v" =
      some { name := "bob", amount := 2, donations := [⟨2, 400000⟩],
             week_start := 400000 }) ∧
    (alGet
        (cleanup_expired_weeks
          [("g", { weekly_donations :=
                     [("u", { name := "alice", amount := 5,
                              donations := [⟨5, 0⟩], week_start := 0 }),
                      ("v", { name := "bob", amount := 2,
                              donations := [⟨2, 400000⟩],
                              week_start := 400000 })],
                   total_donations :=
                     [("u", { name := "alice", amount := 5,
                              donations := [⟨5, 0⟩] })],
                   last_reset := none })] 604800) "g").map
        GuildData.total_donations =
      some [("u", { name := "alice", amount := 5,
                    donations := [⟨5, 0⟩] })] := by
  refine ⟨?_, ?_, ?_⟩
  · have := (C3_sweep_deletes_expired
      [("g", { weekly_donations :=
                 [("u", { name := "alice", amount := 5,
                          donations := [⟨5, 0⟩], week_start := 0 }),
                  ("v", { name := "bob", amount := 2,
                          donations := [⟨2, 400000⟩],
                          week_start := 400000 })],
               total_donations :=
                 [("u", { name := "alice", amount := 5,
                          donations := [⟨5, 0⟩] })],
               last_reset := none })] 604800 "g" "u"
      { weekly_donations :=
          [("u", { name := "alice", amount := 5,
                   donations := [⟨5, 0⟩], week_start := 0 }),
           ("v", { name := "bob", amount := 2,
                   donations := [⟨2, 400000⟩], week_start := 400000 })],
        total_donations :=
          [("u", { name := "alice", amount := 5, donations := [⟨5, 0⟩] })],
        last_reset := none }
      rfl (by decide)).1
      { name := "alice", amount := 5, donations := [⟨5, 0⟩], week_start := 0 }
      rfl
    simpa using this
  · have := (C3_sweep_deletes_expired
      [("g", { weekly_donations :=
                 [("u", { name := "alice", amount := 5,
                          donations := [⟨5, 0⟩], week_start := 0 }),
                  ("v", { name := "bob", amount := 2,
                          donations := [⟨2, 400000⟩],
                          week_start := 400000 })],
               total_donations :=
                 [("u", { name := "alice", amount := 5,
                          donations := [⟨5, 0⟩] })],
               last_reset := none })] 604800 "g" "v"
      { weekly_donations :=
          [("u", { name := "alice", amount := 5,
                   donations := [⟨5, 0⟩], week_start := 0 }),
           ("v", { name := "bob", amount := 2,
                   donations := [⟨2, 400000⟩], week_start := 400000 })],
        total_donations :=
          [("u", { name := "alice", amount := 5, donations := [⟨5, 0⟩] })],
        last_reset := none }
      rfl (by decide)).1
      { name := "bob", amount := 2, donations := [⟨2, 400000⟩],
        week_start := 400000 }
      rfl
    simpa using this
  · exact (C3_sweep_deletes_expired
      [("g", { weekly_donations :=
                 [("u", { name := "alice", amount := 5,
                          donations := [⟨5, 0⟩], week_start := 0 }),
                  ("v", { name := "bob", amount := 2,
                          donations := [⟨2, 400000⟩],
                          week_start := 400000 })],
               total_donations :=
                 [("u", { name := "alice", amount := 5,
                          donations := [⟨5, 0⟩] })],
               last_reset := none })] 604800 "g" "u"
      { weekly_donations :=
          [("u", { name := "alice", amount := 5,
                   donations := [⟨5, 0⟩], week_start := 0 }),
           ("v", { name := "bob", amount := 2,
                   donations := [⟨2, 400000⟩], week_start := 400000 })],
        total_donations :=
          [("u", { name := "alice", amount := 5, donations := [⟨5, 0⟩] })],
        last_reset := none }
      rfl (by decide)).2

/-- C5: the expiry sweep is idempotent — sweeping twice at the same
instant with no intervening appends leaves the store exactly as after the
first sweep. -/
theorem C5_sweep_idempotent (st : Store) (now : Int) :
    cleanup_expired_weeks (cleanup_expired_weeks st now) now =
      cleanup_expired_weeks st now := by
  unfold cleanup_expired_weeks
  rw [List.map_map]
  apply List.map_congr_left
  intro gv _
  simp [Function.comp, sweepGuild, List.filter_filter]

theorem add_donation_total_self (st : Store) (guild user name : String)
    (amount : Nat) (now : Int) :
    totalAmountOf (add_donation st guild user name amount now) guild user =
      totalAmountOf st guild user + amount ∧
    totalEventsOf (add_donation st guild user name amount now) guild user =
      totalEventsOf st guild user ++ [⟨amount, now⟩] := by
  cases hg : alGet st guild with
  | none =>
    simp [add_donation, totalAmountOf, totalEventsOf, hg, emptyGuild,
      alGet_alSet_self, alGet]
  | some gd =>
    cases ht : alGet gd.total_donations user with
    | none =>
      simp [add_donation, totalAmountOf, totalEventsOf, hg, ht,
        alGet_alSet_self]
    | some t =>
      simp [add_donation, totalAmountOf, totalEventsOf, hg, ht,
        alGet_alSet_self]

theorem add_donation_total_other (st : Store) (g u name : String)
    (amount : Nat) (now : Int) (guild user : String)
    (h : ¬(g = guild ∧ u = user)) :
    totalAmountOf (add_donation st g u name amount now) guild user =
      totalAmountOf st guild user ∧
    totalEventsOf (add_donation st g u name amount now) guild user =
      totalEventsOf st guild user := by
  by_cases hgg : g = guild
  · subst hgg
    have hu : u ≠ user := fun huu => h ⟨rfl, huu⟩
    cases hgd : alGet st g with
    | none =>
      simp [add_donation, totalAmountOf, totalEventsOf, hgd, emptyGuild,
        alGet_alSet_self, alGet_alSet_ne _ _ _ _ hu, alGet, hu]
    | some gd =>
      cases ht : alGet gd.total_donations u with
      | none =>
        simp [add_donation, totalAmountOf, totalEventsOf, hgd, ht,
          alGet_alSet_self, alGet_alSet_ne _ _ _ _ hu]
      | some t =>
        simp [add_donation, totalAmountOf, totalEventsOf, hgd, ht,
          alGet_alSet_self, alGet_alSet_ne _ _ _ _ hu]
  · simp [add_donation, totalAmountOf, totalEventsOf,
      alGet_alSet_ne _ _ _ _ hgg]

theorem cleanup_total_unchanged (st : Store) (now : Int)
    (guild user : String) :
    totalAmountOf (cleanup_expired_weeks st now) guild user =
      totalAmountOf st guild user ∧
    totalEventsOf (cleanup_expired_weeks st now) guild user =
      totalEventsOf st guild user := by
  unfold totalAmountOf totalEventsOf cleanup_expired_weeks
  rw [alGet_map_snd st (sweepGuild now) guild]
  cases alGet st guild <;> simp [sweepGuild]

theorem runOps_total_aggregate (ops : List Op) (st : Store)
    (guild user : String) :
    totalAmountOf (runOps ops st) guild user =
      totalAmountOf st guild user +
        ((appendsFor guild user ops).map Prod.fst).sum ∧
    totalEventsOf (runOps ops st) guild user =
      totalEventsOf st guild user ++
        (appendsFor guild user ops).map (fun an => ⟨an.1, an.2⟩) := by
  induction ops generalizing st with
  | nil => simp [runOps, appendsFor]
  | cons op ops ih =>
    have hrun : runOps (op :: ops) st = runOps ops (applyOp st op) := by
      simp [runOps]
    cases op with
    | append g u nm a n =>
      by_cases hgu : g = guild ∧ u = user
      · obtain ⟨hgg, huu⟩ := hgu
        subst hgg; subst huu
        have hs := add_donation_total_self st g u nm a n
        have hi := ih (add_donation st g u nm a n)
        rw [hrun]
        simp only [applyOp] at hi ⊢
        refine ⟨?_, ?_⟩
        · rw [hi.1, hs.1]
          simp [appendsFor]
          omega
        · rw [hi.2, hs.2]
          simp [appendsFor]
      · have hs := add_donation_total_other st g u nm a n guild user hgu
        have hi := ih (add_donation st g u nm a n)
        rw [hrun]
        simp only [applyOp] at hi ⊢
        refine ⟨?_, ?_⟩
        · rw [hi.1, hs.1]
          simp [appendsFor, hgu]
        · rw [hi.2, hs.2]
          simp [appendsFor, hgu]
    | sweep n =>
      have hs := cleanup_total_unchanged st n guild user
      have hi := ih (cleanup_expired_weeks st n)
      rw [hrun]
      simp only [applyOp] at hi ⊢
      refine ⟨?_, ?_⟩
      · rw [hi.1, hs.1]; simp [appendsFor]
      · rw [hi.2, hs.2]; simp [appendsFor]

/-- C4: starting from the empty store, after any sequence of appends and
sweeps the player's total aggregate holds exactly the ever-appended
amounts: its running total is their sum, its event list is the appended
events in append order, and the invariant
`runningTotal = sum(events.amount)` holds — no window reset ever
diminishes or clears it. -/
theorem C4_total_aggregate_invariant (ops : List Op) (guild user : String) :
    totalAmountOf (runOps ops []) guild user =
      ((appendsFor guild user ops).map Prod.fst).sum ∧
    totalEventsOf (runOps ops []) guild user =
      (appendsFor guild user ops).map (fun an => ⟨an.1, an.2⟩) ∧
    totalAmountOf (runOps ops []) guild user =
      ((totalEventsOf (runOps ops []) guild user).map
        DonationRecord.amount).sum := by
  have h := runOps_total_aggregate ops [] guild user
  have h0a : totalAmountOf [] guild user = 0 := rfl
  have h0e : totalEventsOf [] guild user = ([] : List DonationRecord) := rfl
  rw [h0a, h0e] at h
  refine ⟨by rw [h.1]; simp, by rw [h.2]; simp, ?_⟩
  rw [h.1, h.2]
  simp only [List.nil_append, List.map_map, Nat.zero_add]
  congr 1

/-- C1 counterexample: the claim says that when several mentioned users
are registered the first qualifying mention wins and exactly one donation
record is appended.  With registered users "1" and "2" both mentioned, the
attribution loop of `process_donation_message` records one donation per
registered mention — two records, not one. -/
theorem C1_first_mention_counterexample :
    process_attributions [("1", "alice"), ("2", "bob")] ["1", "2"]
        (strL "") = [("1", "alice"), ("2", "bob")] ∧
    (process_attributions [("1", "alice"), ("2", "bob")] ["1", "2"]
        (strL "")).length ≠ 1 := by
  exact ⟨by decide, by decide⟩

/-- C1 amended: attribution prefers explicit mentions over the name
search, but when several mentioned users are registered the donation is
recorded once per registered mention in mention order (not only for the
first).  The name-substring fallback is not consulted: the result is
independent of the searchable text, even if that text contains another
registered player's name. -/
theorem C1_mention_attribution (reg : List (String × String))
    (mentions : List String) (txt txt' : List Char)
    (h : mentions.filterMap
        (fun u => (alGet reg u).map (fun nm => (u, nm))) ≠ []) :
    process_attributions reg mentions txt =
      mentions.filterMap (fun u => (alGet reg u).map (fun nm => (u, nm))) ∧
    process_attributions reg mentions txt =
      process_attributions reg mentions txt' := by
  cases hm : mentions.filterMap
      (fun u => (alGet reg u).map (fun nm => (u, nm))) with
  | nil => exact absurd hm h
  | cons a l =>
    unfold process_attributions
    rw [hm]
    simp

theorem C1_mention_attribution_witness :
    process_attributions [("1", "alice"), ("2", "bob")] ["2"]
        (strL "alice donated 100") = [("2", "bob")] ∧
    process_attributions [("1", "alice"), ("2", "bob")] ["2"]
        (strL "alice donated 100") =
      process_attributions [("1", "alice"), ("2", "bob")] ["2"] (strL "") := by
  have h := C1_mention_attribution [("1", "alice"), ("2", "bob")] ["2"]
    (strL "alice donated 100") (strL "") (by decide)
  exact ⟨by rw [h.1]; decide, h.2⟩

/-- C7: loading a legacy flat document — keys short or non-numeric, so
none looks like a guild id — yields exactly one synthetic guild "0"
holding the entire original document unchanged; for the donations ledger
(whose legacy documents carry the top-level "weekly_donations" key) and
for the registered-players directory (legacy documents are non-empty). -/
theorem C7_legacy_migration (d e : List (String × Json))
    (hd : (alGet d "weekly_donations").isSome = true)
    (hkd : ∀ kv ∈ d, isLongNumericKey kv.1 = false)
    (he : e ≠ [])
    (hke : ∀ kv ∈ e, isLongNumericKey kv.1 = false) :
    load_donations_migrate d = [("0", Json.obj d)] ∧
    load_players_migrate e = [("0", Json.obj e)] := by
  constructor
  · have hany : d.any (fun kv => isLongNumericKey kv.1) = false := by
      rw [List.any_eq_false]
      intro kv hkv
      simp [hkd kv hkv]
    unfold load_donations_migrate
    rw [hd, hany]
    simp
  · have hany : e.any (fun kv => isLongNumericKey kv.1) = false := by
      rw [List.any_eq_false]
      intro kv hkv
      simp [hke kv hkv]
    have hne : e.isEmpty = false := by
      cases e with
      | nil => exact absurd rfl he
      | cons a l => rfl
    unfold load_players_migrate
    rw [hne, hany]
    simp

theorem C7_legacy_migration_witness :
    load_donations_migrate
        [("weekly_donations", Json.obj []), ("total_donations", Json.obj []),
         ("last_reset", Json.null)] =
      [("0", Json.obj
          [("weekly_donations", Json.obj []),
           ("total_donations", Json.obj []),
           ("last_reset", Json.null)])] ∧
    load_players_migrate [("alicetag", Json.str "Alice")] =
      [("0", Json.obj [("alicetag", Json.str "Alice")])] := by
  exact C7_legacy_migration
    [("weekly_donations", Json.obj []), ("total_donations", Json.obj []),
     ("last_reset", Json.null)]
    [("alicetag", Json.str "Alice")]
    (by decide) (by decide) (List.cons_ne_nil _ _) (by decide)

theorem alGet_add_donation_other (st : Store) (g u nm : String) (a : Nat)
    (n : Int) (k : String) (hg : g ≠ k) :
    alGet (add_donation st g u nm a n) k = alGet st k := by
  simp only [add_donation]
  rw [alGet_alSet_ne st g k _ hg]

theorem runOps_guild_none (ops : List Op) (st : Store) (k : String)
    (hops : ∀ op ∈ ops, opGuild op ≠ some k)
    (hst : alGet st k = none) :
    alGet (runOps ops st) k = none := by
  induction ops generalizing st with
  | nil => exact hst
  | cons op ops ih =>
    have hrun : runOps (op :: ops) st = runOps ops (applyOp st op) := by
      simp [runOps]
    rw [hrun]
    apply ih _ (fun o ho => hops o (List.mem_cons_of_mem op ho))
    cases op with
    | append g u nm a n =>
      have hg : g ≠ k := by
        intro hgk
        exact hops (Op.append g u nm a n) (List.mem_cons_self _ _)
          (by rw [hgk]; rfl)
      simp only [applyOp]
      rw [alGet_add_donation_other st g u nm a n k hg]
      exact hst
    | sweep n =>
      simp only [applyOp]
      unfold cleanup_expired_weeks
      rw [alGet_map_snd st (sweepGuild n) k, hst]
      rfl

/-- C8: for every ledger produced by a sequence of appends and sweeps
(guild keys are guild ids, hence never the literal "weekly_donations"),
saving and re-loading reproduces the document exactly: the load-time
migration does not re-wrap or alter an already guild-keyed document, so
all weekly and total running totals and event counts are preserved. -/
theorem C8_ledger_round_trip (ops : List Op)
    (hops : ∀ op ∈ ops, opGuild op ≠ some "weekly_donations") :
    load_donations_migrate (storeToJson (runOps ops [])) =
      storeToJson (runOps ops []) := by
  have hnone : alGet (runOps ops []) "weekly_donations" = none :=
    runOps_guild_none ops [] "weekly_donations" hops rfl
  have hjson :
      alGet (storeToJson (runOps ops [])) "weekly_donations" = none := by
    unfold storeToJson
    rw [alGet_map_snd _ guildToJson _, hnone]
    rfl
  unfold load_donations_migrate
  rw [hjson]
  simp

theorem C8_ledger_round_trip_witness :
    load_donations_migrate
        (storeToJson
          (runOps [Op.append "123456789012" "u" "alice" 5 0,
                   Op.sweep 604800] [])) =
      storeToJson
        (runOps [Op.append "123456789012" "u" "alice" 5 0,
                 Op.sweep 604800] []) := by
  exact C8_ledger_round_trip
    [Op.append "123456789012" "u" "alice" 5 0, Op.sweep 604800]
    (by decide)

theorem alGet_some_key_mem (m : List (String × α)) (k : String) (v : α)
    (h : alGet m k = some v) : k ∈ m.map Prod.fst := by
  induction m with
  | nil => simp [alGet] at h
  | cons kv m ih =>
    obtain ⟨k0, v0⟩ := kv
    by_cases h0 : k0 = k
    · simp [h0]
    · simp only [alGet, if_neg h0] at h
      simp [ih h]

/-- C9 amended: `generate_weekly_report` starts by reading the top-level
key "weekly_donations", so on every guild-keyed store (all keys long
numeric guild ids) it raises `KeyError` instead of returning a summary; it
can only succeed on a document with a top-level "weekly_donations" key;
and `load_donations` produces no such document from a legacy document (it
wraps it) — though a stored document that mixes a "weekly_donations" key
with a long numeric key is passed through unchanged, so such a shape can
still come out of `load_donations`. -/
theorem C9_weekly_report_needs_legacy_shape (d : List (String × Json)) :
    ((∀ kv ∈ d, isLongNumericKey kv.1 = true) →
      weekly_report_data d = none) ∧
    (∀ j, weekly_report_data d = some j →
      "weekly_donations" ∈ d.map Prod.fst) ∧
    ((alGet d "weekly_donations").isSome = true →
      d.any (fun kv => isLongNumericKey kv.1) = false →
      weekly_report_data (load_donations_migrate d) = none) ∧
    ((∀ kv ∈ d, isLongNumericKey kv.1 = true) →
      weekly_report_data (load_donations_migrate d) = none) := by
  have hkey : (∀ kv ∈ d, isLongNumericKey kv.1 = true) →
      weekly_report_data d = none := by
    intro hall
    cases hw : weekly_report_data d with
    | none => rfl
    | some j =>
      exfalso
      have hmem := alGet_some_key_mem d "weekly_donations" j hw
      rw [List.mem_map] at hmem
      obtain ⟨kv, hkv, hk⟩ := hmem
      have := hall kv hkv
      rw [hk] at this
      exact absurd this (by decide)
  refine ⟨hkey, ?_, ?_, ?_⟩
  · intro j hj
    exact alGet_some_key_mem d "weekly_donations" j hj
  · intro hsome hany
    unfold load_donations_migrate
    rw [hsome, hany]
    simp [weekly_report_data, alGet]
  · intro hall
    have hd := hkey hall
    have hsome : (alGet d "weekly_donations").isSome = false := by
      unfold weekly_report_data at hd
      rw [hd]
      rfl
    unfold load_donations_migrate
    rw [hsome]
    simpa using hd

theorem C9_weekly_report_needs_legacy_shape_witness :
    weekly_report_data [("123456789012", Json.null)] = none ∧
    weekly_report_data
        (load_donations_migrate
          [("weekly_donations", Json.obj []), ("alice", Json.null)]) =
      none ∧
    weekly_report_data
        (load_donations_migrate [("123456789012", Json.null)]) = none := by
  refine ⟨(C9_weekly_report_needs_legacy_shape
      [("123456789012", Json.null)]).1 (by decide), ?_, ?_⟩
  · exact (C9_weekly_report_needs_legacy_shape
      [("weekly_donations", Json.obj []), ("alice", Json.null)]).2.2.1
      (by rfl) (by decide)
  · exact (C9_weekly_report_needs_legacy_shape
      [("123456789012", Json.null)]).2.2.2 (by decide)

/-- C9 counterexample: the claim asserts `load_donations` never returns a
document with a top-level "weekly_donations" key.  A stored document that
mixes such a key with a long numeric guild key fails the migration test
and is returned unchanged, "weekly_donations" key included. -/
theorem C9_load_can_return_weekly_key_counterexample :
    load_donations_migrate
        [("weekly_donations", Json.null), ("123456789012", Json.null)] =
      [("weekly_donations", Json.null), ("123456789012", Json.null)] ∧
    (alGet [("weekly_donations", Json.null), ("123456789012", Json.null)]
        "weekly_donations").isSome = true := by
  constructor
  · unfold load_donations_migrate
    have : ([("weekly_donations", Json.null),
             ("123456789012", Json.null)].any
        (fun kv => isLongNumericKey kv.1)) = true := by decide
    rw [this]
    simp
  · rfl

/-- C10: players-directory persistence is not round-trip stable for
migrated documents: `load_registered_players` wraps any non-empty document
with no long numeric key, and the synthetic tenant key "0" of a previously
migrated document fails the long-numeric test, so a saved migrated
directory is wrapped again into `{"0": {"0": ...}}`. -/
theorem C10_players_double_wrap (inner d : List (String × Json))
    (hd : d ≠ []) (hk : ∀ kv ∈ d, isLongNumericKey kv.1 = false) :
    load_players_migrate [("0", Json.obj inner)] =
      [("0", Json.obj [("0", Json.obj inner)])] ∧
    load_players_migrate d = [("0", Json.obj d)] := by
  constructor
  · unfold load_players_migrate
    simp [show isLongNumericKey "0" = false by decide]
  · have hany : d.any (fun kv => isLongNumericKey kv.1) = false := by
      rw [List.any_eq_false]
      intro kv hkv
      simp [hk kv hkv]
    have hne : d.isEmpty = false := by
      cases d with
      | nil => exact absurd rfl hd
      | cons a l => rfl
    unfold load_players_migrate
    rw [hne, hany]
    simp

theorem C10_players_double_wrap_witness :
    load_players_migrate [("0", Json.obj [("u1", Json.str "alice")])] =
      [("0", Json.obj [("0", Json.obj [("u1", Json.str "alice")])])] ∧
    load_players_migrate [("u1", Json.str "alice")] =
      [("0", Json.obj [("u1", Json.str "alice")])] := by
  exact ⟨(C10_players_double_wrap [("u1", Json.str "alice")]
      [("x", Json.null)] (List.cons_ne_nil _ _) (by decide)).1,
    (C10_players_double_wrap [] [("u1", Json.str "alice")]
      (List.cons_ne_nil _ _) (by decide)).2⟩

theorem isDigitC_spec (c : Char) (h : isDigitC c = true) : '0' ≤ c ∧ c ≤ '9' := by
  unfold isDigitC at h
  rw [Bool.and_eq_true, decide_eq_true_eq, decide_eq_true_eq] at h
  exact h

theorem isSpaceC_lt (c : Char) (h : isSpaceC c = true) : c < '0' := by
  unfold isSpaceC at h
  simp only [Bool.or_eq_true, decide_eq_true_eq] at h
  rcases h with ((((h | h) | h) | h) | h) | h <;> subst h <;> decide

theorem digit_not_space (c : Char) (h : isDigitC c = true) :
    isSpaceC c = false := by
  cases hs : isSpaceC c
  · rfl
  · exact absurd (lt_of_lt_of_le (isSpaceC_lt c hs) (isDigitC_spec c h).1)
      (lt_irrefl c)

theorem digitComma_not_space (c : Char) (h : isDigitComma c = true) :
    isSpaceC c = false := by
  unfold isDigitComma at h
  rw [Bool.or_eq_true] at h
  rcases h with h | h
  · exact digit_not_space c h
  · rw [decide_eq_true_eq] at h
    subst h
    decide

theorem digit_not_upper (c : Char) (h : isDigitC c = true) :
    ('A' ≤ c && c ≤ 'Z') = false := by
  obtain ⟨h1, h2⟩ := isDigitC_spec c h
  cases hA : decide ('A' ≤ c) with
  | false => simp [hA]
  | true =>
    rw [decide_eq_true_eq] at hA
    exact absurd (le_trans hA h2) (by decide)

theorem toLowerC_digitComma (c : Char) (h : isDigitComma c = true) :
    toLowerC c = c := by
  unfold isDigitComma at h
  rw [Bool.or_eq_true] at h
  rcases h with h | h
  · unfold toLowerC
    rw [digit_not_upper c h]
    simp
  · rw [decide_eq_true_eq] at h
    subst h
    decide

theorem digitComma_ne (c c0 : Char) (h : isDigitComma c = true)
    (h0 : isDigitComma c0 = false) : c ≠ c0 := by
  intro he
  subst he
  rw [h] at h0
  exact Bool.true_eq_false.mp h0

theorem isPfx_append (l s : List Char) : isPfx l (l ++ s) = true := by
  induction l with
  | nil => rfl
  | cons c l ih => simp [isPfx, ih]

theorem isPfx_head_ne (c c0 : Char) (l t : List Char) (h : c0 ≠ c) :
    isPfx (c0 :: l) (c :: t) = false := by
  simp [isPfx, h]

theorem isPfx_eq_append (l s : List Char) (h : isPfx l s = true) :
    s = l ++ s.drop l.length := by
  induction l generalizing s with
  | nil => simp
  | cons c l ih =>
    cases s with
    | nil => simp [isPfx] at h
    | cons c' t =>
      simp only [isPfx, Bool.and_eq_true, decide_eq_true_eq] at h
      obtain ⟨he, hp⟩ := h
      subst he
      simpa using ih t hp

theorem containsSub_of_isPfx (l s : List Char) (h : isPfx l s = true) :
    containsSub l s = true := by
  cases s with
  | nil => simpa [containsSub] using h
  | cons c t => simp [containsSub, h]

theorem containsSub_append_left (l t : List Char) (s : List Char)
    (h : containsSub l t = true) : containsSub l (s ++ t) = true := by
  induction s with
  | nil => simpa using h
  | cons c s ih => simp [containsSub, ih]

theorem containsSub_drop (l s : List Char) (k : Nat)
    (h : containsSub l (s.drop k) = true) : containsSub l s = true := by
  have := containsSub_append_left l (s.drop k) (s.take k) h
  rwa [List.take_append_drop] at this

theorem firstSome_cons_some {f : α → Option β} {a : α} {b : β} (l : List α)
    (h : f a = some b) : firstSome (a :: l) f = some b := by
  simp [firstSome, h]

theorem firstSome_cons_none {f : α → Option β} {a : α} (l : List α)
    (h : f a = none) : firstSome (a :: l) f = firstSome l f := by
  simp [firstSome, h]

theorem firstSome_none {f : α → Option β} (l : List α)
    (h : ∀ a ∈ l, f a = none) : firstSome l f = none := by
  induction l with
  | nil => rfl
  | cons a l ih =>
    rw [firstSome, h a (List.mem_cons_self a l)]
    exact ih (fun x hx => h x (List.mem_cons_of_mem a hx))

theorem firstSome_some_exists {f : α → Option β} {b : β} (l : List α)
    (h : firstSome l f = some b) : ∃ a ∈ l, f a = some b := by
  induction l with
  | nil => simp [firstSome] at h
  | cons a l ih =>
    rw [firstSome] at h
    cases hf : f a with
    | some b' =>
      rw [hf] at h
      exact ⟨a, List.mem_cons_self a l, by rw [hf]; exact h⟩
    | none =>
      rw [hf] at h
      obtain ⟨x, hx, hfx⟩ := ih h
      exact ⟨x, List.mem_cons_of_mem a hx, hfx⟩

theorem not_digitComma_not_digit (c : Char) (h : isDigitComma c = false) :
    isDigitC c = false := by
  unfold isDigitComma at h
  cases hd : isDigitC c
  · rfl
  · rw [hd] at h
    simp at h

theorem digit_digitComma (c : Char) (h : isDigitC c = true) :
    isDigitComma c = true := by
  unfold isDigitComma
  rw [h]
  rfl

theorem renderTail_append (gs : List (List Char)) (r : List Char) :
    renderTail gs [] ++ r = renderTail gs r := by
  induction gs with
  | nil => rfl
  | cons g gs ih =>
    simp only [renderTail, List.cons_append, List.append_assoc, ih]

theorem renderNum_ne_nil (g : List Char) (gs : List (List Char))
    (h : NumOK g gs) : renderNum g gs ≠ [] := by
  cases g with
  | nil => exact absurd rfl h.1
  | cons c t => simp [renderNum]

theorem renderTail_chars (gs : List (List Char))
    (hgs : ∀ d ∈ gs, d ≠ [] ∧ ∀ c ∈ d, isDigitC c = true) :
    ∀ c ∈ renderTail gs [], isDigitComma c = true := by
  induction gs with
  | nil => intro c hc; simp [renderTail] at hc
  | cons g gs ih =>
    intro c hc
    simp only [renderTail, List.mem_cons, List.mem_append] at hc
    rcases hc with hc | hc | hc
    · subst hc; decide
    · exact digit_digitComma c ((hgs g (List.mem_cons_self g gs)).2 c hc)
    · exact ih (fun d hd => hgs d (List.mem_cons_of_mem g hd)) c hc

theorem renderNum_chars (g : List Char) (gs : List (List Char))
    (h : NumOK g gs) : ∀ c ∈ renderNum g gs, isDigitComma c = true := by
  intro c hc
  unfold renderNum at hc
  rw [List.mem_append] at hc
  rcases hc with hc | hc
  · exact digit_digitComma c (h.2.1 c hc)
  · exact renderTail_chars gs h.2.2 c hc

theorem takeWhile_append_all (p : Char → Bool) (g r : List Char)
    (hg : ∀ c ∈ g, p c = true)
    (hr : ∀ c t, r = c :: t → p c = false) :
    (g ++ r).takeWhile p = g := by
  induction g with
  | nil =>
    cases r with
    | nil => rfl
    | cons c t => simp [List.takeWhile_cons, hr c t rfl]
  | cons c g ih =>
    simp [List.cons_append, List.takeWhile_cons, hg c (List.mem_cons_self c g),
      ih (fun x hx => hg x (List.mem_cons_of_mem c hx))]

theorem takeWhile_drop_self (p : Char → Bool) (l : List Char) :
    l.takeWhile p ++ l.drop (l.takeWhile p).length = l := by
  induction l with
  | nil => rfl
  | cons c t ih =>
    cases hp : p c with
    | true => simp [List.takeWhile_cons, hp, ih]
    | false => simp [List.takeWhile_cons, hp]

theorem tailGroups_nil (fuel : Nat) : tailGroups fuel [] = ([], []) := by
  cases fuel <;> rfl

theorem tailGroups_comma (fuel : Nat) (r2 : List Char) :
    tailGroups (fuel + 1) (',' :: r2) =
      (if (r2.takeWhile isDigitC).isEmpty then ([], ',' :: r2)
       else ((r2.takeWhile isDigitC) :: (tailGroups fuel
                (r2.drop (r2.takeWhile isDigitC).length)).1,
             (tailGroups fuel
                (r2.drop (r2.takeWhile isDigitC).length)).2)) := rfl

theorem tailGroups_other (fuel : Nat) (c : Char) (t : List Char)
    (hc : c ≠ ',') : tailGroups (fuel + 1) (c :: t) = ([], c :: t) := by
  unfold tailGroups
  split
  · next r2 heq =>
    injection heq with h1 _
    exact absurd h1 hc
  · rfl

theorem renderTail_head_not_digit (gs : List (List Char)) (r : List Char)
    (hr : ∀ c t, r = c :: t → isDigitComma c = false) :
    ∀ c t, renderTail gs r = c :: t → isDigitC c = false := by
  cases gs with
  | nil =>
    intro c t h
    exact not_digitComma_not_digit c (hr c t h)
  | cons g gs =>
    intro c t h
    simp only [renderTail, List.cons.injEq] at h
    rw [← h.1]
    decide

theorem tailGroups_render (gs : List (List Char)) (r : List Char)
    (fuel : Nat)
    (hgs : ∀ d ∈ gs, d ≠ [] ∧ ∀ c ∈ d, isDigitC c = true)
    (hr : ∀ c t, r = c :: t → isDigitComma c = false)
    (hfuel : (renderTail gs []).length ≤ fuel) :
    tailGroups fuel (renderTail gs r) = (gs, r) := by
  induction gs generalizing fuel with
  | nil =>
    cases fuel with
    | zero => rfl
    | succ f =>
      cases hrr : r with
      | nil => exact tailGroups_nil (f + 1)
      | cons c t =>
        have hc : c ≠ ',' := by
          have := hr c t hrr
          intro he
          subst he
          exact absurd this (by decide)
        show tailGroups (f + 1) (c :: t) = ([], c :: t)
        exact tailGroups_other f c t hc
  | cons g2 gs' ih =>
    cases fuel with
    | zero =>
      exfalso
      simp [renderTail] at hfuel
    | succ f =>
      have hg2 := hgs g2 (List.mem_cons_self g2 gs')
      have hgs' : ∀ d ∈ gs', d ≠ [] ∧ ∀ c ∈ d, isDigitC c = true :=
        fun d hd => hgs d (List.mem_cons_of_mem g2 hd)
      show tailGroups (f + 1) (',' :: (g2 ++ renderTail gs' r)) = _
      rw [tailGroups_comma]
      have htw : (g2 ++ renderTail gs' r).takeWhile isDigitC = g2 :=
        takeWhile_append_all isDigitC g2 (renderTail gs' r) hg2.2
          (renderTail_head_not_digit gs' r hr)
      rw [htw]
      have hne : g2.isEmpty = false := by
        cases g2 with
        | nil => exact absurd rfl hg2.1
        | cons a b => rfl
      rw [hne]
      simp only [Bool.false_eq_true, if_false]
      rw [List.drop_left]
      have hfuel' : (renderTail gs' []).length ≤ f := by
        simp only [renderTail, List.length_cons, List.length_append] at hfuel
        omega
      rw [ih f hgs' hfuel']

theorem tailGroups_reconstruct (fuel : Nat) (r : List Char) :
    renderTail (tailGroups fuel r).1 (tailGroups fuel r).2 = r := by
  induction fuel generalizing r with
  | zero => rfl
  | succ f ih =>
    cases r with
    | nil => rw [tailGroups_nil]; rfl
    | cons c t =>
      by_cases hc : c = ','
      · subst hc
        rw [tailGroups_comma]
        by_cases hg : (t.takeWhile isDigitC).isEmpty = true
        · simp only [hg, if_true]
          rfl
        · simp only [hg, Bool.false_eq_true, if_false]
          show ',' :: (t.takeWhile isDigitC ++
            renderTail (tailGroups f (t.drop (t.takeWhile isDigitC).length)).1
              (tailGroups f (t.drop (t.takeWhile isDigitC).length)).2) = _
          rw [ih (t.drop (t.takeWhile isDigitC).length)]
          rw [takeWhile_drop_self isDigitC t]
      · rw [tailGroups_other f c t hc]
        rfl

theorem capCands_eq (s : List Char) :
    capCands s =
      if (s.takeWhile isDigitC).isEmpty then []
      else capCandsFrom (s.takeWhile isDigitC)
        (tailGroups s.length (s.drop (s.takeWhile isDigitC).length)).1
        (tailGroups s.length (s.drop (s.takeWhile isDigitC).length)).2 := rfl

theorem starAll_spec (gs : List (List Char)) (r : List Char)
    (hgs : ∀ d ∈ gs, d ≠ [] ∧ ∀ c ∈ d, isDigitC c = true) :
    ∃ junk, starAll gs r = (renderTail gs [], r) :: junk ∧
      ∀ p ∈ junk, ∃ c t, p.2 = c :: t ∧ isDigitComma c = true := by
  induction gs with
  | nil => exact ⟨[], rfl, by simp⟩
  | cons g gs ih =>
    obtain ⟨junk, heq, hjunk⟩ :=
      ih (fun d hd => hgs d (List.mem_cons_of_mem g hd))
    have hg := hgs g (List.mem_cons_self g gs)
    refine ⟨(junk.map (fun p => (',' :: (g ++ p.1), p.2)))
        ++ ((List.range (g.length - 1)).map (fun i =>
              (',' :: g.take (g.length - 1 - i),
               g.drop (g.length - 1 - i) ++ renderTail gs r)))
        ++ [([], ',' :: (g ++ renderTail gs r))], ?_, ?_⟩
    · rw [show starAll (g :: gs) r =
        ((starAll gs r).map (fun p => (',' :: (g ++ p.1), p.2)))
          ++ ((List.range (g.length - 1)).map (fun i =>
                (',' :: g.take (g.length - 1 - i),
                 g.drop (g.length - 1 - i) ++ renderTail gs r)))
          ++ [([], ',' :: (g ++ renderTail gs r))] from rfl]
      rw [heq]
      simp only [List.map_cons, List.cons_append]
      rfl
    · intro p hp
      simp only [List.mem_append, List.mem_map, List.mem_singleton,
        List.mem_range] at hp
      rcases hp with (⟨q, hq, hpq⟩ | ⟨i, hi, hpi⟩) | hp3
      · obtain ⟨c, t, h2, hc⟩ := hjunk q hq
        exact ⟨c, t, by rw [← hpq]; exact h2, hc⟩
      · have hl1 : 1 ≤ g.length - 1 - i := by omega
        have hl2 : g.length - 1 - i < g.length := by omega
        cases hd : g.drop (g.length - 1 - i) with
        | nil =>
          exfalso
          have := List.length_drop (g.length - 1 - i) g
          rw [hd] at this
          simp at this
          omega
        | cons c t =>
          have hcg : c ∈ g := List.drop_subset _ g
            (by rw [hd]; exact List.mem_cons_self c t)
          refine ⟨c, t ++ renderTail gs r, ?_,
            digit_digitComma c (hg.2 c hcg)⟩
          rw [← hpi]
          simp [hd]
      · exact ⟨',', g ++ renderTail gs r, by rw [hp3], by decide⟩

theorem capCandsFrom_spec (g : List Char) (gs : List (List Char))
    (r : List Char) (hg : g ≠ [] ∧ ∀ c ∈ g, isDigitC c = true)
    (hgs : ∀ d ∈ gs, d ≠ [] ∧ ∀ c ∈ d, isDigitC c = true) :
    ∃ junk, capCandsFrom g gs r = (g ++ renderTail gs [], r) :: junk ∧
      ∀ p ∈ junk, ∃ c t, p.2 = c :: t ∧ isDigitComma c = true := by
  obtain ⟨junk, heq, hjunk⟩ := starAll_spec gs r hgs
  refine ⟨(junk.map (fun p => (g ++ p.1, p.2)))
      ++ ((List.range (g.length - 1)).map (fun i =>
            (g.take (g.length - 1 - i),
             g.drop (g.length - 1 - i) ++ renderTail gs r))), ?_, ?_⟩
  · unfold capCandsFrom
    rw [heq]
    simp only [List.map_cons, List.cons_append]
  · intro p hp
    simp only [List.mem_append, List.mem_map, List.mem_range] at hp
    rcases hp with ⟨q, hq, hpq⟩ | ⟨i, hi, hpi⟩
    · obtain ⟨c, t, h2, hc⟩ := hjunk q hq
      exact ⟨c, t, by rw [← hpq]; exact h2, hc⟩
    · have hl2 : g.length - 1 - i < g.length := by omega
      cases hd : g.drop (g.length - 1 - i) with
      | nil =>
        exfalso
        have := List.length_drop (g.length - 1 - i) g
        rw [hd] at this
        simp at this
        omega
      | cons c t =>
        have hcg : c ∈ g := List.drop_subset _ g
          (by rw [hd]; exact List.mem_cons_self c t)
        refine ⟨c, t ++ renderTail gs r, ?_,
          digit_digitComma c (hg.2 c hcg)⟩
        rw [← hpi]
        simp [hd]

theorem capCands_render (g : List Char) (gs : List (List Char))
    (r : List Char) (hnum : NumOK g gs)
    (hr : ∀ c t, r = c :: t → isDigitComma c = false) :
    ∃ junk, capCands (renderNum g gs ++ r) = (renderNum g gs, r) :: junk ∧
      ∀ p ∈ junk, ∃ c t, p.2 = c :: t ∧ isDigitComma c = true := by
  have hsplit : renderNum g gs ++ r = g ++ renderTail gs r := by
    unfold renderNum
    rw [List.append_assoc, renderTail_append]
  have htw : (g ++ renderTail gs r).takeWhile isDigitC = g :=
    takeWhile_append_all isDigitC g (renderTail gs r) hnum.2.1
      (renderTail_head_not_digit gs r hr)
  have hne : g.isEmpty = false := by
    cases hg : g with
    | nil => exact absurd hg hnum.1
    | cons a b => rfl
  have htg : tailGroups (g ++ renderTail gs r).length
      ((g ++ renderTail gs r).drop g.length) = (gs, r) := by
    rw [List.drop_left]
    apply tailGroups_render gs r _ hnum.2.2 hr
    rw [List.length_append, ← renderTail_append gs r, List.length_append]
    omega
  obtain ⟨junk, heq, hjunk⟩ := capCandsFrom_spec g gs r ⟨hnum.1, hnum.2.1⟩
    hnum.2.2
  refine ⟨junk, ?_, hjunk⟩
  rw [hsplit, capCands_eq, htw, hne]
  simp only [Bool.false_eq_true, if_false]
  rw [htg, heq]
  rfl

theorem reMatch_cap_some (ts : List Tok) (g : List Char)
    (gs : List (List Char)) (r : List Char) (cs : List (List Char))
    (hnum : NumOK g gs)
    (hr : ∀ c t, r = c :: t → isDigitComma c = false)
    (hcont : reMatch ts r = some cs) :
    reMatch (Tok.cap :: ts) (renderNum g gs ++ r) =
      some (renderNum g gs :: cs) := by
  obtain ⟨junk, heq, _⟩ := capCands_render g gs r hnum hr
  rw [show reMatch (Tok.cap :: ts) (renderNum g gs ++ r) =
    firstSome (capCands (renderNum g gs ++ r))
      (fun p => (reMatch ts p.2).map (fun cs => p.1 :: cs)) from rfl]
  rw [heq]
  exact firstSome_cons_some _ (by simp [hcont])

theorem reMatch_cap_none_head (ts : List Tok) (c : Char) (t : List Char)
    (hc : isDigitC c = false) :
    reMatch (Tok.cap :: ts) (c :: t) = none := by
  rw [show reMatch (Tok.cap :: ts) (c :: t) =
    firstSome (capCands (c :: t))
      (fun p => (reMatch ts p.2).map (fun cs => p.1 :: cs)) from rfl]
  have : capCands (c :: t) = [] := by
    rw [capCands_eq]
    simp [List.takeWhile_cons, hc]
  rw [this]
  rfl

theorem reMatch_cap_none_nil (ts : List Tok) :
    reMatch (Tok.cap :: ts) [] = none := rfl

theorem reMatch_cap_fail (ts : List Tok) (g : List Char)
    (gs : List (List Char)) (r : List Char) (hnum : NumOK g gs)
    (hr : ∀ c t, r = c :: t → isDigitComma c = false)
    (hdc : ∀ c t, isDigitComma c = true → reMatch ts (c :: t) = none)
    (hrest : reMatch ts r = none) :
    reMatch (Tok.cap :: ts) (renderNum g gs ++ r) = none := by
  obtain ⟨junk, heq, hjunk⟩ := capCands_render g gs r hnum hr
  rw [show reMatch (Tok.cap :: ts) (renderNum g gs ++ r) =
    firstSome (capCands (renderNum g gs ++ r))
      (fun p => (reMatch ts p.2).map (fun cs => p.1 :: cs)) from rfl]
  rw [heq]
  apply firstSome_none
  intro p hp
  rcases List.mem_cons.mp hp with hp | hp
  · subst hp
    simp [hrest]
  · obtain ⟨c, t, h2, hc⟩ := hjunk p hp
    simp [h2, hdc c t hc]

theorem reMatch_lit_step (l : List Char) (ts : List Tok) (s : List Char) :
    reMatch (Tok.lit l :: ts) (l ++ s) = reMatch ts s := by
  rw [show reMatch (Tok.lit l :: ts) (l ++ s) =
    (if isPfx l (l ++ s) then reMatch ts ((l ++ s).drop l.length) else none)
    from rfl]
  rw [isPfx_append]
  simp [List.drop_left]

theorem reMatch_lit_none (l : List Char) (ts : List Tok) (s : List Char)
    (h : isPfx l s = false) : reMatch (Tok.lit l :: ts) s = none := by
  rw [show reMatch (Tok.lit l :: ts) s =
    (if isPfx l s then reMatch ts (s.drop l.length) else none) from rfl]
  rw [h]
  rfl

theorem wsCands_eq (s : List Char) :
    wsCands s = (List.range (s.takeWhile isSpaceC).length).map
      (fun i => s.drop ((s.takeWhile isSpaceC).length - i)) := rfl

theorem reMatch_ws_step (ts : List Tok) (c : Char) (s : List Char)
    (hc : isSpaceC c = true)
    (hs : ∀ c' t', s = c' :: t' → isSpaceC c' = false) :
    reMatch (Tok.ws :: ts) (c :: s) = reMatch ts s := by
  have htw : (c :: s).takeWhile isSpaceC = [c] := by
    cases hss : s with
    | nil => simp [List.takeWhile_cons, hc]
    | cons c' t' =>
      simp [List.takeWhile_cons, hc, hs c' t' hss]
  rw [show reMatch (Tok.ws :: ts) (c :: s) =
    firstSome (wsCands (c :: s)) (fun t => reMatch ts t) from rfl]
  rw [wsCands_eq, htw]
  rw [show List.range ([c].length) = [0] from by simp [List.range_succ]]
  simp only [List.map_cons, List.map_nil, List.length_cons, List.length_nil,
    Nat.sub_zero, List.drop_succ_cons, List.drop_zero]
  cases h : reMatch ts s with
  | none => simp [firstSome, h]
  | some v => simp [firstSome, h]

theorem reMatch_ws_none (ts : List Tok) (c : Char) (t : List Char)
    (hc : isSpaceC c = false) : reMatch (Tok.ws :: ts) (c :: t) = none := by
  rw [show reMatch (Tok.ws :: ts) (c :: t) =
    firstSome (wsCands (c :: t)) (fun x => reMatch ts x) from rfl]
  rw [wsCands_eq]
  simp [List.takeWhile_cons, hc, firstSome]

theorem reMatch_ws_none_nil (ts : List Tok) :
    reMatch (Tok.ws :: ts) [] = none := rfl

theorem reMatch_optC_yes (c : Char) (ts : List Tok) (t : List Char)
    (v : List (List Char)) (h : reMatch ts t = some v) :
    reMatch (Tok.optC c :: ts) (c :: t) = some v := by
  rw [show reMatch (Tok.optC c :: ts) (c :: t) =
    (if c = c then
      (match reMatch ts t with
       | some v => some v
       | none => reMatch ts (c :: t))
     else reMatch ts (c :: t)) from rfl]
  rw [if_pos rfl, h]

theorem reMatch_dotStar_here (ts : List Tok) (s : List Char)
    (v : List (List Char)) (h : reMatch ts s = some v) :
    reMatch (Tok.dotStarLazy :: ts) s = some v := by
  have hl : ∃ rest, lazyCands s = s :: rest := by
    cases s with
    | nil => exact ⟨[], rfl⟩
    | cons c t => exact ⟨_, rfl⟩
  obtain ⟨rest, hrest⟩ := hl
  rw [show reMatch (Tok.dotStarLazy :: ts) s =
    firstSome (lazyCands s) (fun t => reMatch ts t) from rfl]
  rw [hrest]
  exact firstSome_cons_some _ h

theorem reMatch_dotStar_cons (ts : List Tok) (c : Char) (s : List Char)
    (hc : c ≠ '\n') (hfail : reMatch ts (c :: s) = none) :
    reMatch (Tok.dotStarLazy :: ts) (c :: s) =
      reMatch (Tok.dotStarLazy :: ts) s := by
  rw [show reMatch (Tok.dotStarLazy :: ts) (c :: s) =
    firstSome (lazyCands (c :: s)) (fun t => reMatch ts t) from rfl]
  rw [show lazyCands (c :: s) =
    (c :: s) :: (if c = '\n' then [] else lazyCands s) from rfl]
  rw [if_neg hc]
  rw [firstSome_cons_none _ hfail]
  rfl

theorem searchToks_cons (p : List Tok) (c : Char) (t : List Char) :
    searchToks p (c :: t) =
      (match reMatch p (c :: t) with
       | some v => some v
       | none => searchToks p t) := rfl

theorem searchToks_of_reMatch (p : List Tok) (s : List Char)
    (v : List (List Char)) (h : reMatch p s = some v) :
    searchToks p s = some v := by
  cases s with
  | nil => rw [show searchToks p [] = reMatch p [] from rfl, h]
  | cons c t => rw [searchToks_cons, h]

theorem searchToks_append_skip (p : List Tok) (m s : List Char)
    (h : ∀ k, k < m.length → reMatch p (m.drop k ++ s) = none) :
    searchToks p (m ++ s) = searchToks p s := by
  induction m with
  | nil => rfl
  | cons c m ih =>
    have h0 : reMatch p (c :: (m ++ s)) = none := by
      have := h 0 (by simp)
      simpa using this
    rw [List.cons_append, searchToks_cons, h0]
    exact ih (fun k hk => by
      have := h (k + 1) (by simp only [List.length_cons]; omega)
      simpa using this)

theorem searchToks_skip_nohead (c0 : Char) (l : List Char) (ts : List Tok)
    (m s : List Char) (hm : ∀ c ∈ m, c ≠ c0) :
    searchToks (Tok.lit (c0 :: l) :: ts) (m ++ s) =
      searchToks (Tok.lit (c0 :: l) :: ts) s := by
  apply searchToks_append_skip
  intro k hk
  cases hd : m.drop k with
  | nil =>
    exfalso
    have := List.length_drop k m
    rw [hd] at this
    simp at this
    omega
  | cons c t =>
    have hc : c ∈ m := List.drop_subset _ m
      (by rw [hd]; exact List.mem_cons_self c t)
    exact reMatch_lit_none _ _ _ (isPfx_head_ne c c0 l _ (Ne.symm (hm c hc)))

theorem searchToks_skip_nodigit_cap (ts : List Tok) (m s : List Char)
    (hm : ∀ c ∈ m, isDigitC c = false) :
    searchToks (Tok.cap :: ts) (m ++ s) =
      searchToks (Tok.cap :: ts) s := by
  apply searchToks_append_skip
  intro k hk
  cases hd : m.drop k with
  | nil =>
    exfalso
    have := List.length_drop k m
    rw [hd] at this
    simp at this
    omega
  | cons c t =>
    have hc : c ∈ m := List.drop_subset _ m
      (by rw [hd]; exact List.mem_cons_self c t)
    exact reMatch_cap_none_head ts c _ (hm c hc)

theorem renderNum_drop (gs : List (List Char)) :
    ∀ g, NumOK g gs → ∀ k, k < (renderNum g gs).length →
    (∃ d gs', NumOK d gs' ∧ (renderNum g gs).drop k = renderNum d gs') ∨
    (∃ d gs', NumOK d gs' ∧
      (renderNum g gs).drop k = ',' :: renderNum d gs') := by
  induction gs with
  | nil =>
    intro g
    induction g with
    | nil => intro h; exact absurd rfl h.1
    | cons c g' ihg =>
      intro hnum k hk
      cases k with
      | zero => exact Or.inl ⟨c :: g', [], hnum, rfl⟩
      | succ k' =>
        have hg' : g' ≠ [] := by
          intro he
          subst he
          simp [renderNum, renderTail] at hk
        have hnum' : NumOK g' [] := by
          refine ⟨hg', fun x hx => hnum.2.1 x (List.mem_cons_of_mem c hx),
            hnum.2.2⟩
        have hk' : k' < (renderNum g' []).length := by
          simp only [renderNum, renderTail, List.append_nil] at hk ⊢
          simp only [List.length_cons] at hk
          omega
        have := ihg hnum' k' hk'
        simpa [renderNum, renderTail] using this
  | cons g2 gs' ihgs =>
    intro g
    induction g with
    | nil => intro h; exact absurd rfl h.1
    | cons c g' ihg =>
      intro hnum k hk
      cases k with
      | zero => exact Or.inl ⟨c :: g', g2 :: gs', hnum, rfl⟩
      | succ k' =>
        by_cases hg' : g' = []
        · subst hg'
          cases k' with
          | zero =>
            refine Or.inr ⟨g2, gs', ?_, rfl⟩
            exact ⟨(hnum.2.2 g2 (List.mem_cons_self g2 gs')).1,
              (hnum.2.2 g2 (List.mem_cons_self g2 gs')).2,
              fun d hd => hnum.2.2 d (List.mem_cons_of_mem g2 hd)⟩
          | succ k'' =>
            have hnum2 : NumOK g2 gs' :=
              ⟨(hnum.2.2 g2 (List.mem_cons_self g2 gs')).1,
               (hnum.2.2 g2 (List.mem_cons_self g2 gs')).2,
               fun d hd => hnum.2.2 d (List.mem_cons_of_mem g2 hd)⟩
            have hk'' : k'' < (renderNum g2 gs').length := by
              have h2 : (renderNum (c :: ([] : List Char))
                  (g2 :: gs')).length = (renderNum g2 gs').length + 2 := by
                show (c :: ',' :: (g2 ++ renderTail gs' [])).length = _
                simp only [List.length_cons, renderNum, List.length_append]
              rw [h2] at hk
              omega
            have := ihgs g2 hnum2 k'' hk''
            simpa [renderNum, renderTail] using this
        · have hnum' : NumOK g' (g2 :: gs') :=
            ⟨hg', fun x hx => hnum.2.1 x (List.mem_cons_of_mem c hx),
             hnum.2.2⟩
          have hk' : k' < (renderNum g' (g2 :: gs')).length := by
            simp only [renderNum, List.length_cons, List.length_append] at hk ⊢
            omega
          have := ihg hnum' k' hk'
          simpa [renderNum] using this

theorem searchToks_capled_render_skip (ts : List Tok) (g : List Char)
    (gs : List (List Char)) (c2 : List Char) (hnum : NumOK g gs)
    (hc2 : ∀ c t, c2 = c :: t → isDigitComma c = false)
    (hdc : ∀ c t, isDigitComma c = true → reMatch ts (c :: t) = none)
    (hc2fail : reMatch ts c2 = none) :
    searchToks (Tok.cap :: ts) (renderNum g gs ++ c2) =
      searchToks (Tok.cap :: ts) c2 := by
  apply searchToks_append_skip
  intro k hk
  rcases renderNum_drop gs g hnum k hk with
    ⟨d, gs', hnum', hda⟩ | ⟨d, gs', hnum', hda⟩
  · rw [hda]
    exact reMatch_cap_fail ts d gs' c2 hnum' hc2 hdc hc2fail
  · rw [hda, List.cons_append]
    exact reMatch_cap_none_head ts ',' _ (by decide)

theorem searchToks_litled_render_skip (c0 : Char) (l : List Char)
    (ts : List Tok) (hc0 : isDigitComma c0 = false) (g : List Char)
    (gs : List (List Char)) (s : List Char) (hnum : NumOK g gs) :
    searchToks (Tok.lit (c0 :: l) :: ts) (renderNum g gs ++ s) =
      searchToks (Tok.lit (c0 :: l) :: ts) s :=
  searchToks_skip_nohead c0 l ts (renderNum g gs) s
    (fun c hc => digitComma_ne c c0 (renderNum_chars g gs hnum c hc) hc0)

theorem starAll_rest_extend (gs : List (List Char)) (r : List Char) :
    ∀ p ∈ starAll gs r, ∃ u, renderTail gs r = u ++ p.2 := by
  induction gs with
  | nil =>
    intro p hp
    simp only [starAll, List.mem_singleton] at hp
    exact ⟨[], by rw [hp]; rfl⟩
  | cons g gs ih =>
    intro p hp
    simp only [starAll, List.mem_append, List.mem_map, List.mem_singleton,
      List.mem_range] at hp
    rcases hp with (⟨q, hq, hpq⟩ | ⟨i, hi, hpi⟩) | hp3
    · obtain ⟨u, hu⟩ := ih q hq
      subst hpq
      refine ⟨',' :: (g ++ u), ?_⟩
      show ',' :: (g ++ renderTail gs r) = _
      rw [hu, ← List.append_assoc]
      rfl
    · subst hpi
      refine ⟨',' :: g.take (g.length - 1 - i), ?_⟩
      show ',' :: (g ++ renderTail gs r) = _
      conv_lhs => rw [← List.take_append_drop (g.length - 1 - i) g]
      rw [List.append_assoc]
      rfl
    · rw [hp3]
      exact ⟨[], rfl⟩

theorem capCands_rest_extend (s : List Char) :
    ∀ p ∈ capCands s, ∃ u, s = u ++ p.2 := by
  intro p hp
  rw [capCands_eq] at hp
  by_cases he : (s.takeWhile isDigitC).isEmpty = true
  · rw [he] at hp
    simp at hp
  · rw [Bool.not_eq_true] at he
    rw [he] at hp
    simp only [Bool.false_eq_true, if_false] at hp
    set tw := s.takeWhile isDigitC with htw
    set tg := tailGroups s.length (s.drop tw.length) with htg
    have hs : s = tw ++ renderTail tg.1 tg.2 := by
      rw [htg, htw]
      conv_lhs => rw [← takeWhile_drop_self isDigitC s]
      rw [tailGroups_reconstruct]
    unfold capCandsFrom at hp
    simp only [List.mem_append, List.mem_map, List.mem_range] at hp
    rcases hp with ⟨q, hq, hpq⟩ | ⟨i, hi, hpi⟩
    · obtain ⟨u, hu⟩ := starAll_rest_extend _ _ q hq
      subst hpq
      refine ⟨tw ++ u, ?_⟩
      calc s = tw ++ renderTail tg.1 tg.2 := hs
        _ = tw ++ (u ++ q.2) := by rw [hu]
        _ = (tw ++ u) ++ q.2 := by rw [List.append_assoc]
    · subst hpi
      refine ⟨tw.take (tw.length - 1 - i), ?_⟩
      calc s = tw ++ renderTail tg.1 tg.2 := hs
        _ = (tw.take (tw.length - 1 - i) ++ tw.drop (tw.length - 1 - i))
              ++ renderTail tg.1 tg.2 := by rw [List.take_append_drop]
        _ = tw.take (tw.length - 1 - i) ++
              (tw.drop (tw.length - 1 - i) ++ renderTail tg.1 tg.2) := by
            rw [List.append_assoc]

theorem lazyCands_mem_drop (s : List Char) :
    ∀ x ∈ lazyCands s, ∃ k, x = s.drop k := by
  induction s with
  | nil =>
    intro x hx
    simp only [lazyCands, List.mem_singleton] at hx
    exact ⟨0, hx⟩
  | cons c t ih =>
    intro x hx
    rw [show lazyCands (c :: t) =
      (c :: t) :: (if c = '\n' then [] else lazyCands t) from rfl] at hx
    rcases List.mem_cons.mp hx with hx | hx
    · exact ⟨0, hx⟩
    · by_cases hc : c = '\n'
      · rw [if_pos hc] at hx
        simp at hx
      · rw [if_neg hc] at hx
        obtain ⟨k, hk⟩ := ih x hx
        exact ⟨k + 1, by simpa using hk⟩

theorem wsCands_mem_drop (s : List Char) :
    ∀ x ∈ wsCands s, ∃ k, x = s.drop k := by
  intro x hx
  rw [wsCands_eq] at hx
  rw [List.mem_map] at hx
  obtain ⟨i, _, hi⟩ := hx
  exact ⟨(s.takeWhile isSpaceC).length - i, hi.symm⟩

theorem reMatch_lit_mem (ts : List Tok) :
    ∀ s v, reMatch ts s = some v →
      ∀ l, Tok.lit l ∈ ts → containsSub l s = true := by
  induction ts with
  | nil =>
    intro s v h l hl
    simp at hl
  | cons tok ts ih =>
    intro s v h l hl
    cases tok with
    | lit l' =>
      by_cases hpf : isPfx l' s = true
      · have hstep : reMatch (Tok.lit l' :: ts) s =
            reMatch ts (s.drop l'.length) := by
          rw [show reMatch (Tok.lit l' :: ts) s =
            (if isPfx l' s then reMatch ts (s.drop l'.length) else none)
            from rfl, hpf]
          rfl
        rw [hstep] at h
        rcases List.mem_cons.mp hl with hl | hl
        · injection hl with hll
          subst hll
          exact containsSub_of_isPfx l s hpf
        · exact containsSub_drop l s _ (ih _ v h l hl)
      · rw [Bool.not_eq_true] at hpf
        rw [reMatch_lit_none l' ts s hpf] at h
        exact absurd h (by simp)
    | ws =>
      have hh : firstSome (wsCands s) (fun t => reMatch ts t) = some v := h
      obtain ⟨t, ht, hft⟩ := firstSome_some_exists _ hh
      obtain ⟨k, hk⟩ := wsCands_mem_drop s t ht
      subst hk
      rcases List.mem_cons.mp hl with hl | hl
      · exact absurd hl (by simp)
      · exact containsSub_drop l s k (ih _ v hft l hl)
    | optC c =>
      rcases List.mem_cons.mp hl with hl0 | hl0
      · exact absurd hl0 (by simp)
      cases s with
      | nil =>
        have hh : reMatch ts [] = some v := h
        exact ih _ v hh l hl0
      | cons c' t =>
        by_cases hc : c' = c
        · subst hc
          have hh : (match reMatch ts t with
              | some w => some w
              | none => reMatch ts (c' :: t)) = some v := by
            have := h
            rw [show reMatch (Tok.optC c' :: ts) (c' :: t) =
              (if c' = c' then
                (match reMatch ts t with
                 | some w => some w
                 | none => reMatch ts (c' :: t))
               else reMatch ts (c' :: t)) from rfl, if_pos rfl] at this
            exact this
          cases hmt : reMatch ts t with
          | some w =>
            have : containsSub l t = true := ih _ w hmt l hl0
            exact containsSub_drop l (c' :: t) 1 (by simpa using this)
          | none =>
            rw [hmt] at hh
            exact ih _ v hh l hl0
        · have hh : reMatch ts (c' :: t) = some v := by
            have := h
            rw [show reMatch (Tok.optC c :: ts) (c' :: t) =
              (if c' = c then
                (match reMatch ts t with
                 | some w => some w
                 | none => reMatch ts (c' :: t))
               else reMatch ts (c' :: t)) from rfl, if_neg hc] at this
            exact this
          exact ih _ v hh l hl0
    | dotStarLazy =>
      have hh : firstSome (lazyCands s) (fun t => reMatch ts t) = some v := h
      obtain ⟨t, ht, hft⟩ := firstSome_some_exists _ hh
      obtain ⟨k, hk⟩ := lazyCands_mem_drop s t ht
      subst hk
      rcases List.mem_cons.mp hl with hl | hl
      · exact absurd hl (by simp)
      · exact containsSub_drop l s k (ih _ v hft l hl)
    | cap =>
      have hh : firstSome (capCands s)
          (fun p => (reMatch ts p.2).map (fun cs => p.1 :: cs)) = some v := h
      obtain ⟨p, hp, hfp⟩ := firstSome_some_exists _ hh
      obtain ⟨cs, hcs, _⟩ := Option.map_eq_some'.mp hfp
      obtain ⟨u, hu⟩ := capCands_rest_extend s p hp
      rcases List.mem_cons.mp hl with hl | hl
      · exact absurd hl (by simp)
      · have := ih _ cs hcs l hl
        rw [hu]
        exact containsSub_append_left l p.2 u this

theorem searchToks_some_drop (p : List Tok) :
    ∀ s v, searchToks p s = some v → ∃ k, reMatch p (s.drop k) = some v := by
  intro s
  induction s with
  | nil =>
    intro v h
    exact ⟨0, h⟩
  | cons c t ih =>
    intro v h
    rw [searchToks_cons] at h
    cases hm : reMatch p (c :: t) with
    | some w =>
      rw [hm] at h
      exact ⟨0, by rw [List.drop_zero, hm]; exact h⟩
    | none =>
      rw [hm] at h
      obtain ⟨k, hk⟩ := ih v h
      exact ⟨k + 1, by simpa using hk⟩

theorem searchToks_none_of_lit_absent (p : List Tok) (l : List Char)
    (hl : Tok.lit l ∈ p) (s : List Char)
    (habs : containsSub l s = false) : searchToks p s = none := by
  cases hs : searchToks p s with
  | none => rfl
  | some v =>
    exfalso
    obtain ⟨k, hk⟩ := searchToks_some_drop p s v hs
    have h1 := reMatch_lit_mem p (s.drop k) v hk l hl
    have h2 := containsSub_drop l s k h1
    rw [h2] at habs
    exact absurd habs (by simp)

theorem isPfx_cross (m c2 : List Char) (hm0 : m ≠ [])
    (hmc : ∀ c ∈ m, isDigitComma c = true) :
    ∀ c1 l, (∀ c ∈ l, isDigitComma c = false) →
      isPfx l (c1 ++ m ++ c2) = isPfx l c1 := by
  intro c1
  induction c1 with
  | nil =>
    intro l hl
    cases l with
    | nil => rfl
    | cons x l' =>
      cases m with
      | nil => exact absurd rfl hm0
      | cons mc mt =>
        have hx : x ≠ mc :=
          Ne.symm (digitComma_ne mc x (hmc mc (List.mem_cons_self mc mt))
            (hl x (List.mem_cons_self x l')))
        show isPfx (x :: l') (mc :: (mt ++ c2)) = isPfx (x :: l') []
        rw [isPfx_head_ne mc x l' _ hx]
        rfl
  | cons a c1' ih =>
    intro l hl
    cases l with
    | nil => rfl
    | cons x l' =>
      show (decide (x = a) && isPfx l' (c1' ++ m ++ c2)) =
        (decide (x = a) && isPfx l' c1')
      rw [ih l' (fun c hc => hl c (List.mem_cons_of_mem x hc))]

theorem containsSub_mid_false (l : List Char) (hl0 : l ≠ [])
    (hlc : ∀ c ∈ l, isDigitComma c = false) :
    ∀ m c2, (∀ c ∈ m, isDigitComma c = true) →
      containsSub l c2 = false → containsSub l (m ++ c2) = false := by
  intro m
  induction m with
  | nil =>
    intro c2 _ h2
    simpa using h2
  | cons mc mt ih =>
    intro c2 hmc h2
    show (isPfx l (mc :: (mt ++ c2)) || containsSub l (mt ++ c2)) = false
    rw [ih c2 (fun c hc => hmc c (List.mem_cons_of_mem mc hc)) h2]
    obtain ⟨x, l', rfl⟩ : ∃ x l', l = x :: l' := by
      cases l with
      | nil => exact absurd rfl hl0
      | cons x l' => exact ⟨x, l', rfl⟩
    rw [isPfx_head_ne mc x l' _
      (Ne.symm (digitComma_ne mc x (hmc mc (List.mem_cons_self mc mt))
        (hlc x (List.mem_cons_self x l'))))]
    rfl

theorem containsSub_tripart_false (l m : List Char) (hl0 : l ≠ [])
    (hlc : ∀ c ∈ l, isDigitComma c = false)
    (hmc : ∀ c ∈ m, isDigitComma c = true) (hm0 : m ≠ []) :
    ∀ c1 c2, containsSub l c1 = false → containsSub l c2 = false →
      containsSub l (c1 ++ m ++ c2) = false := by
  intro c1
  induction c1 with
  | nil =>
    intro c2 h1 h2
    simpa using containsSub_mid_false l hl0 hlc m c2 hmc h2
  | cons a c1' ih =>
    intro c2 h1 h2
    show (isPfx l ((a :: c1') ++ m ++ c2) ||
      containsSub l (c1' ++ m ++ c2)) = false
    rw [isPfx_cross m c2 hm0 hmc (a :: c1') l hlc]
    have h1h : isPfx l (a :: c1') = false ∧ containsSub l c1' = false := by
      have : (isPfx l (a :: c1') || containsSub l c1') = false := h1
      rw [Bool.or_eq_false_iff] at this
      exact this
    rw [h1h.1, ih c2 h1h.2 h2]
    rfl

theorem lowerL_append (a b : List Char) :
    lowerL (a ++ b) = lowerL a ++ lowerL b := by
  simp [lowerL]

theorem lowerL_render (g : List Char) (gs : List (List Char))
    (h : NumOK g gs) :
    (renderNum g gs).map toLowerC = renderNum g gs := by
  have hmap : ∀ c ∈ renderNum g gs, toLowerC c = id c :=
    fun c hc => toLowerC_digitComma c (renderNum_chars g gs h c hc)
  rw [List.map_congr_left hmap, List.map_id]

theorem parse_eq (content : List Char) :
    parse_donation_message content =
      (if donationKeywords.any
          (fun k => containsSub k (content.map toLowerC)) then
        tryPatterns patterns (content.map toLowerC)
      else none) := rfl

theorem parse_donation_eval (content : List Char) (k : List Char)
    (hk : k ∈ donationKeywords)
    (hc : containsSub k (content.map toLowerC) = true) :
    parse_donation_message content =
      tryPatterns patterns (content.map toLowerC) := by
  rw [parse_eq]
  rw [List.any_eq_true.mpr ⟨k, hk, hc⟩]
  rfl

theorem tryPatterns_eq (p : List Tok) (ps : List (List Tok))
    (cl : List Char) :
    tryPatterns (p :: ps) cl =
      (match searchToks p cl with
       | some caps =>
         (match parseIntOpt (stripCommas (caps.headD [])) with
          | some a => some a
          | none => tryPatterns ps cl)
       | none => tryPatterns ps cl) := rfl

theorem tryPatterns_cons_none (p : List Tok) (ps : List (List Tok))
    (cl : List Char) (h : searchToks p cl = none) :
    tryPatterns (p :: ps) cl = tryPatterns ps cl := by
  rw [tryPatterns_eq, h]

theorem tryPatterns_cons_some (p : List Tok) (ps : List (List Tok))
    (cl : List Char) (caps : List (List Char)) (a : Nat)
    (hs : searchToks p cl = some caps)
    (hp : parseIntOpt (stripCommas (caps.headD [])) = some a) :
    tryPatterns (p :: ps) cl = some a := by
  rw [tryPatterns_eq, hs]
  show (match parseIntOpt (stripCommas (caps.headD [])) with
        | some a => some a
        | none => tryPatterns ps cl) = some a
  rw [hp]

theorem tryPatterns_cons_skip (p : List Tok) (ps : List (List Tok))
    (cl : List Char) (caps : List (List Char))
    (hs : searchToks p cl = some caps)
    (hp : parseIntOpt (stripCommas (caps.headD [])) = none) :
    tryPatterns (p :: ps) cl = tryPatterns ps cl := by
  rw [tryPatterns_eq, hs]
  show (match parseIntOpt (stripCommas (caps.headD [])) with
        | some a => some a
        | none => tryPatterns ps cl) = tryPatterns ps cl
  rw [hp]

theorem stripCommas_all_digits (g : List Char)
    (hg : ∀ c ∈ g, isDigitC c = true) : stripCommas g = g := by
  unfold stripCommas
  apply List.filter_eq_self.mpr
  intro c hc
  have hne : c ≠ ',' := by
    intro he
    have := hg c hc
    subst he
    exact absurd this (by decide)
  simp [hne]

theorem stripCommas_append (a b : List Char) :
    stripCommas (a ++ b) = stripCommas a ++ stripCommas b := by
  simp [stripCommas, List.filter_append]

theorem stripCommas_render (g : List Char) (gs : List (List Char))
    (h : NumOK g gs) : stripCommas (renderNum g gs) = g ++ gs.join := by
  unfold renderNum
  rw [stripCommas_append, stripCommas_all_digits g h.2.1]
  congr 1
  have main : ∀ gs', (∀ d ∈ gs', d ≠ [] ∧ ∀ c ∈ d, isDigitC c = true) →
      stripCommas (renderTail gs' []) = gs'.join := by
    intro gs'
    induction gs' with
    | nil => intro _; rfl
    | cons g2 gt ih =>
      intro hgs
      show stripCommas (',' :: (g2 ++ renderTail gt [])) = _
      rw [show stripCommas (',' :: (g2 ++ renderTail gt [])) =
        stripCommas (g2 ++ renderTail gt []) from by simp [stripCommas]]
      rw [stripCommas_append,
        stripCommas_all_digits g2 (hgs g2 (List.mem_cons_self g2 gt)).2,
        ih (fun d hd => hgs d (List.mem_cons_of_mem g2 hd))]
      rfl
  exact main gs h.2.2

theorem parseIntOpt_digits (s : List Char) (h0 : s ≠ [])
    (hd : ∀ c ∈ s, isDigitC c = true) :
    parseIntOpt s = some (digitsVal s) := by
  unfold parseIntOpt
  have he : s.isEmpty = false := by
    cases s with
    | nil => exact absurd rfl h0
    | cons a b => rfl
  rw [he]
  simp only [Bool.false_eq_true, if_false]
  rw [List.all_eq_true.mpr hd]
  rfl

theorem capture_parse (g : List Char) (gs : List (List Char))
    (h : NumOK g gs) :
    parseIntOpt (stripCommas (renderNum g gs)) =
      some (digitsVal (g ++ gs.join)) := by
  rw [stripCommas_render g gs h]
  apply parseIntOpt_digits
  · intro he
    rcases List.append_eq_nil.mp he with ⟨h1, _⟩
    exact h.1 h1
  · intro c hc
    rcases List.mem_append.mp hc with hc | hc
    · exact h.2.1 c hc
    · rw [List.mem_join] at hc
      obtain ⟨d, hd, hcd⟩ := hc
      exact (h.2.2 d hd).2 c hcd

theorem headNot_of_head (p : Char → Bool) (c0 : Char) (t0 : List Char)
    (hc : p c0 = false) : ∀ c t, (c0 :: t0) = c :: t → p c = false := by
  intro c t h
  injection h with h1 _
  rw [← h1]
  exact hc

theorem restOK_nil : ∀ c t, ([] : List Char) = c :: t →
    isDigitComma c = false := by
  intro c t h
  exact absurd h (by simp)

theorem headNot_space_render (g : List Char) (gs : List (List Char))
    (h : NumOK g gs) (x : List Char) :
    ∀ c t, (renderNum g gs ++ x) = c :: t → isSpaceC c = false := by
  intro c t hct
  obtain ⟨d, g', rfl⟩ : ∃ d g', g = d :: g' := by
    cases g with
    | nil => exact absurd rfl h.1
    | cons d g' => exact ⟨d, g', rfl⟩
  have hform : renderNum (d :: g') gs ++ x =
      d :: ((g' ++ renderTail gs []) ++ x) := rfl
  rw [hform] at hct
  injection hct with h1 _
  rw [← h1]
  exact digit_not_space d (h.2.1 d (List.mem_cons_self d g'))

theorem reMatch_pat1_core (g : List Char) (gs : List (List Char))
    (h : NumOK g gs) :
    reMatch pat1 (strL "donated **" ++ renderNum g gs ++ strL "** gold") =
      some [renderNum g gs] := by
  rw [show strL "donated **" ++ renderNum g gs ++ strL "** gold" =
    strL "donated" ++ (' ' :: (strL "**" ++
      (renderNum g gs ++ strL "** gold"))) from rfl]
  rw [show pat1 = Tok.lit (strL "donated") :: (Tok.ws ::
    (Tok.lit (strL "**") :: (Tok.cap ::
      [Tok.lit (strL "**"), Tok.ws, Tok.lit (strL "gold")]))) from rfl]
  rw [reMatch_lit_step (strL "donated")]
  rw [reMatch_ws_step _ ' '
    (strL "**" ++ (renderNum g gs ++ strL "** gold")) (by decide)
    (headNot_of_head isSpaceC '*' _ (by decide))]
  rw [reMatch_lit_step (strL "**")]
  exact reMatch_cap_some _ g gs (strL "** gold") [] h
    (headNot_of_head isDigitComma '*' _ (by decide)) (by decide)

theorem extract1 (g : List Char) (gs : List (List Char)) (h : NumOK g gs) :
    parse_donation_message
        (strL "donated **" ++ renderNum g gs ++ strL "** gold") =
      some (digitsVal (g ++ gs.join)) := by
  have hcl : (strL "donated **" ++ renderNum g gs ++
      strL "** gold").map toLowerC =
      strL "donated **" ++ renderNum g gs ++ strL "** gold" := by
    rw [List.map_append, List.map_append, lowerL_render g gs h]
    rfl
  rw [parse_donation_eval _ (strL "donated") (by decide)
    (by rw [hcl]; exact containsSub_of_isPfx _ _ rfl)]
  rw [hcl]
  rw [show patterns = pat1 :: [pat2, pat3, pat4, pat5, pat6, pat7, pat8,
    pat9, pat10, pat11, pat12, pat13, pat14, pat15, pat16, pat17] from rfl]
  rw [tryPatterns_cons_some _ _ _ [renderNum g gs] _
    (searchToks_of_reMatch _ _ _ (reMatch_pat1_core g gs h))
    (by rw [show ([renderNum g gs].headD []) = renderNum g gs from rfl]
        exact capture_parse g gs h)]

theorem extract2 (g : List Char) (gs : List (List Char)) (h : NumOK g gs) :
    parse_donation_message
        (strL "you have donated **" ++ renderNum g gs ++ strL "** gold") =
      some (digitsVal (g ++ gs.join)) := by
  have hcl : (strL "you have donated **" ++ renderNum g gs ++
      strL "** gold").map toLowerC =
      strL "you have donated **" ++ renderNum g gs ++ strL "** gold" := by
    rw [List.map_append, List.map_append, lowerL_render g gs h]
    rfl
  rw [parse_donation_eval _ (strL "donated") (by decide)
    (by
      rw [hcl]
      rw [show strL "you have donated **" ++ renderNum g gs ++
        strL "** gold" = strL "you have " ++ (strL "donated **" ++
          (renderNum g gs ++ strL "** gold")) from rfl]
      exact containsSub_append_left _ _ _ (containsSub_of_isPfx _ _ rfl))]
  rw [hcl]
  rw [show patterns = pat1 :: [pat2, pat3, pat4, pat5, pat6, pat7, pat8,
    pat9, pat10, pat11, pat12, pat13, pat14, pat15, pat16, pat17] from rfl]
  rw [tryPatterns_cons_some _ _ _ [renderNum g gs] _
    (by
      rw [show strL "you have donated **" ++ renderNum g gs ++
        strL "** gold" = strL "you have " ++ (strL "donated **" ++
          (renderNum g gs ++ strL "** gold")) from rfl]
      rw [show pat1 = Tok.lit ('d' :: strL "onated") :: (Tok.ws ::
        (Tok.lit (strL "**") :: (Tok.cap ::
          [Tok.lit (strL "**"), Tok.ws, Tok.lit (strL "gold")]))) from rfl]
      rw [searchToks_skip_nohead 'd' (strL "onated") _ (strL "you have ")
        _ (by decide)]
      exact searchToks_of_reMatch _ _ _ (reMatch_pat1_core g gs h))
    (by
      rw [show ([renderNum g gs].headD []) = renderNum g gs from rfl]
      exact capture_parse g gs h)]

theorem extract3 (g : List Char) (gs : List (List Char)) (h : NumOK g gs) :
    parse_donation_message
        (strL "donated " ++ renderNum g gs ++ strL " coins") =
      some (digitsVal (g ++ gs.join)) := by
  have hcl : (strL "donated " ++ renderNum g gs ++
      strL " coins").map toLowerC =
      strL "donated " ++ renderNum g gs ++ strL " coins" := by
    rw [List.map_append, List.map_append, lowerL_render g gs h]
    rfl
  have habs : containsSub (strL "**")
      (strL "donated " ++ renderNum g gs ++ strL " coins") = false :=
    containsSub_tripart_false (strL "**") (renderNum g gs) (by decide)
      (by decide) (renderNum_chars g gs h) (renderNum_ne_nil g gs h)
      (strL "donated ") (strL " coins") (by decide) (by decide)
  rw [parse_donation_eval _ (strL "donated") (by decide)
    (by rw [hcl]; exact containsSub_of_isPfx _ _ rfl)]
  rw [hcl]
  rw [show patterns = pat1 :: [pat2, pat3, pat4, pat5, pat6, pat7, pat8,
    pat9, pat10, pat11, pat12, pat13, pat14, pat15, pat16, pat17] from rfl]
  rw [tryPatterns_cons_none _ _ _
    (searchToks_none_of_lit_absent pat1 (strL "**") (by decide) _ habs)]
  rw [tryPatterns_cons_none _ _ _
    (searchToks_none_of_lit_absent pat2 (strL "**") (by decide) _ habs)]
  rw [tryPatterns_cons_some _ _ _ [renderNum g gs] _
    (by
      apply searchToks_of_reMatch
      rw [show strL "donated " ++ renderNum g gs ++ strL " coins" =
        strL "donated" ++ (' ' :: (renderNum g gs ++ strL " coins"))
        from rfl]
      rw [show pat3 = Tok.lit (strL "donated") :: (Tok.ws :: (Tok.cap ::
        [Tok.ws, Tok.lit (strL "coin"), Tok.optC 's'])) from rfl]
      rw [reMatch_lit_step (strL "donated")]
      rw [reMatch_ws_step _ ' ' (renderNum g gs ++ strL " coins")
        (by decide) (headNot_space_render g gs h _)]
      exact reMatch_cap_some _ g gs (strL " coins") [] h
        (headNot_of_head isDigitComma ' ' _ (by decide)) (by decide))
    (by
      rw [show ([renderNum g gs].headD []) = renderNum g gs from rfl]
      exact capture_parse g gs h)]

theorem extract4 (g : List Char) (gs : List (List Char)) (h : NumOK g gs) :
    parse_donation_message
        (strL "contributed " ++ renderNum g gs ++ strL " coins") =
      some (digitsVal (g ++ gs.join)) := by
  have hcl : (strL "contributed " ++ renderNum g gs ++
      strL " coins").map toLowerC =
      strL "contributed " ++ renderNum g gs ++ strL " coins" := by
    rw [List.map_append, List.map_append, lowerL_render g gs h]
    rfl
  have htri : ∀ l : List Char, l ≠ [] →
      (∀ c ∈ l, isDigitComma c = false) →
      containsSub l (strL "contributed ") = false →
      containsSub l (strL " coins") = false →
      containsSub l
        (strL "contributed " ++ renderNum g gs ++ strL " coins") = false :=
    fun l h0 hl h1 h2 => containsSub_tripart_false l (renderNum g gs) h0 hl
      (renderNum_chars g gs h) (renderNum_ne_nil g gs h)
      (strL "contributed ") (strL " coins") h1 h2
  rw [parse_donation_eval _ (strL "contribute") (by decide)
    (by rw [hcl]; exact containsSub_of_isPfx _ _ rfl)]
  rw [hcl]
  rw [show patterns = pat1 :: [pat2, pat3, pat4, pat5, pat6, pat7, pat8,
    pat9, pat10, pat11, pat12, pat13, pat14, pat15, pat16, pat17] from rfl]
  rw [tryPatterns_cons_none _ _ _
    (searchToks_none_of_lit_absent pat1 (strL "**") (by decide) _
      (htri _ (by decide) (by decide) (by decide) (by decide)))]
  rw [tryPatterns_cons_none _ _ _
    (searchToks_none_of_lit_absent pat2 (strL "**") (by decide) _
      (htri _ (by decide) (by decide) (by decide) (by decide)))]
  rw [tryPatterns_cons_none _ _ _
    (searchToks_none_of_lit_absent pat3 (strL "donated") (by decide) _
      (htri _ (by decide) (by decide) (by decide) (by decide)))]
  rw [tryPatterns_cons_some _ _ _ [renderNum g gs] _
    (by
      apply searchToks_of_reMatch
      rw [show strL "contributed " ++ renderNum g gs ++ strL " coins" =
        strL "contributed" ++ (' ' :: (renderNum g gs ++ strL " coins"))
        from rfl]
      rw [show pat4 = Tok.lit (strL "contributed") :: (Tok.ws ::
        (Tok.cap :: [Tok.ws, Tok.lit (strL "coin"), Tok.optC 's']))
        from rfl]
      rw [reMatch_lit_step (strL "contributed")]
      rw [reMatch_ws_step _ ' ' (renderNum g gs ++ strL " coins")
        (by decide) (headNot_space_render g gs h _)]
      exact reMatch_cap_some _ g gs (strL " coins") [] h
        (headNot_of_head isDigitComma ' ' _ (by decide)) (by decide))
    (by
      rw [show ([renderNum g gs].headD []) = renderNum g gs from rfl]
      exact capture_parse g gs h)]

theorem extract5 (g : List Char) (gs : List (List Char)) (h : NumOK g gs) :
    parse_donation_message
        (strL "gave " ++ renderNum g gs ++ strL " coins") =
      some (digitsVal (g ++ gs.join)) := by
  have hcl : (strL "gave " ++ renderNum g gs ++
      strL " coins").map toLowerC =
      strL "gave " ++ renderNum g gs ++ strL " coins" := by
    rw [List.map_append, List.map_append, lowerL_render g gs h]
    rfl
  have htri : ∀ l : List Char, l ≠ [] →
      (∀ c ∈ l, isDigitComma c = false) →
      containsSub l (strL "gave ") = false →
      containsSub l (strL " coins") = false →
      containsSub l
        (strL "gave " ++ renderNum g gs ++ strL " coins") = false :=
    fun l h0 hl h1 h2 => containsSub_tripart_false l (renderNum g gs) h0 hl
      (renderNum_chars g gs h) (renderNum_ne_nil g gs h)
      (strL "gave ") (strL " coins") h1 h2
  rw [parse_donation_eval _ (strL "gave") (by decide)
    (by rw [hcl]; exact containsSub_of_isPfx _ _ rfl)]
  rw [hcl]
  rw [show patterns = pat1 :: [pat2, pat3, pat4, pat5, pat6, pat7, pat8,
    pat9, pat10, pat11, pat12, pat13, pat14, pat15, pat16, pat17] from rfl]
  rw [tryPatterns_cons_none _ _ _
    (searchToks_none_of_lit_absent pat1 (strL "**") (by decide) _
      (htri _ (by decide) (by decide) (by decide) (by decide)))]
  rw [tryPatterns_cons_none _ _ _
    (searchToks_none_of_lit_absent pat2 (strL "**") (by decide) _
      (htri _ (by decide) (by decide) (by decide) (by decide)))]
  rw [tryPatterns_cons_none _ _ _
    (searchToks_none_of_lit_absent pat3 (strL "donated") (by decide) _
      (htri _ (by decide) (by decide) (by decide) (by decide)))]
  rw [tryPatterns_cons_none _ _ _
    (searchToks_none_of_lit_absent pat4 (strL "contributed") (by decide) _
      (htri _ (by decide) (by decide) (by decide) (by decide)))]
  rw [tryPatterns_cons_some _ _ _ [renderNum g gs] _
    (by
      apply searchToks_of_reMatch
      rw [show strL "gave " ++ renderNum g gs ++ strL " coins" =
        strL "gave" ++ (' ' :: (renderNum g gs ++ strL " coins"))
        from rfl]
      rw [show pat5 = Tok.lit (strL "gave") :: (Tok.ws :: (Tok.cap ::
        [Tok.ws, Tok.lit (strL "coin"), Tok.optC 's'])) from rfl]
      rw [reMatch_lit_step (strL "gave")]
      rw [reMatch_ws_step _ ' ' (renderNum g gs ++ strL " coins")
        (by decide) (headNot_space_render g gs h _)]
      exact reMatch_cap_some _ g gs (strL " coins") [] h
        (headNot_of_head isDigitComma ' ' _ (by decide)) (by decide))
    (by
      rw [show ([renderNum g gs].headD []) = renderNum g gs from rfl]
      exact capture_parse g gs h)]

theorem extract6 (g : List Char) (gs : List (List Char)) (h : NumOK g gs) :
    parse_donation_message (renderNum g gs ++ strL " coins donated") =
      some (digitsVal (g ++ gs.join)) := by
  have hcl : (renderNum g gs ++ strL " coins donated").map toLowerC =
      renderNum g gs ++ strL " coins donated" := by
    rw [List.map_append, lowerL_render g gs h]
    rfl
  have htri : ∀ l : List Char, l ≠ [] →
      (∀ c ∈ l, isDigitComma c = false) →
      containsSub l (strL " coins donated") = false →
      containsSub l (renderNum g gs ++ strL " coins donated") = false :=
    fun l h0 hl h2 => containsSub_tripart_false l (renderNum g gs) h0 hl
      (renderNum_chars g gs h) (renderNum_ne_nil g gs h)
      [] (strL " coins donated")
      (by cases l with
          | nil => exact absurd rfl h0
          | cons a b => rfl) h2
  rw [parse_donation_eval _ (strL "coins") (by decide)
    (by rw [hcl]; exact containsSub_append_left _ _ _ (by decide))]
  rw [hcl]
  rw [show patterns = pat1 :: [pat2, pat3, pat4, pat5, pat6, pat7, pat8,
    pat9, pat10, pat11, pat12, pat13, pat14, pat15, pat16, pat17] from rfl]
  rw [tryPatterns_cons_none _ _ _
    (searchToks_none_of_lit_absent pat1 (strL "**") (by decide) _
      (htri _ (by decide) (by decide) (by decide)))]
  rw [tryPatterns_cons_none _ _ _
    (searchToks_none_of_lit_absent pat2 (strL "**") (by decide) _
      (htri _ (by decide) (by decide) (by decide)))]
  rw [tryPatterns_cons_none _ _ _
    (by
      rw [show pat3 = Tok.lit ('d' :: strL "onated") :: (Tok.ws ::
        (Tok.cap :: [Tok.ws, Tok.lit (strL "coin"), Tok.optC 's']))
        from rfl]
      rw [searchToks_litled_render_skip 'd' (strL "onated") _ (by decide)
        g gs _ h]
      decide)]
  rw [tryPatterns_cons_none _ _ _
    (searchToks_none_of_lit_absent pat4 (strL "contributed") (by decide) _
      (htri _ (by decide) (by decide) (by decide)))]
  rw [tryPatterns_cons_none _ _ _
    (searchToks_none_of_lit_absent pat5 (strL "gave") (by decide) _
      (htri _ (by decide) (by decide) (by decide)))]
  rw [tryPatterns_cons_some _ _ _ [renderNum g gs] _
    (by
      apply searchToks_of_reMatch
      rw [show pat6 = Tok.cap :: [Tok.ws, Tok.lit (strL "coin"),
        Tok.optC 's', Tok.ws, Tok.lit (strL "donated")] from rfl]
      exact reMatch_cap_some _ g gs (strL " coins donated") [] h
        (headNot_of_head isDigitComma ' ' _ (by decide)) (by decide))
    (by
      rw [show ([renderNum g gs].headD []) = renderNum g gs from rfl]
      exact capture_parse g gs h)]

theorem extract7 (g : List Char) (gs : List (List Char)) (h : NumOK g gs) :
    parse_donation_message
        (renderNum g gs ++ strL " coins to the clan") =
      some (digitsVal (g ++ gs.join)) := by
  have hcl : (renderNum g gs ++ strL " coins to the clan").map toLowerC =
      renderNum g gs ++ strL " coins to the clan" := by
    rw [List.map_append, lowerL_render g gs h]
    rfl
  have htri : ∀ l : List Char, l ≠ [] →
      (∀ c ∈ l, isDigitComma c = false) →
      containsSub l (strL " coins to the clan") = false →
      containsSub l (renderNum g gs ++ strL " coins to the clan") = false :=
    fun l h0 hl h2 => containsSub_tripart_false l (renderNum g gs) h0 hl
      (renderNum_chars g gs h) (renderNum_ne_nil g gs h)
      [] (strL " coins to the clan")
      (by cases l with
          | nil => exact absurd rfl h0
          | cons a b => rfl) h2
  rw [parse_donation_eval _ (strL "coins") (by decide)
    (by rw [hcl]; exact containsSub_append_left _ _ _ (by decide))]
  rw [hcl]
  rw [show patterns = pat1 :: [pat2, pat3, pat4, pat5, pat6, pat7, pat8,
    pat9, pat10, pat11, pat12, pat13, pat14, pat15, pat16, pat17] from rfl]
  rw [tryPatterns_cons_none _ _ _
    (searchToks_none_of_lit_absent pat1 (strL "**") (by decide) _
      (htri _ (by decide) (by decide) (by decide)))]
  rw [tryPatterns_cons_none _ _ _
    (searchToks_none_of_lit_absent pat2 (strL "**") (by decide) _
      (htri _ (by decide) (by decide) (by decide)))]
  rw [tryPatterns_cons_none _ _ _
    (searchToks_none_of_lit_absent pat3 (strL "donated") (by decide) _
      (htri _ (by decide) (by decide) (by decide)))]
  rw [tryPatterns_cons_none _ _ _
    (searchToks_none_of_lit_absent pat4 (strL "contributed") (by decide) _
      (htri _ (by decide) (by decide) (by decide)))]
  rw [tryPatterns_cons_none _ _ _
    (searchToks_none_of_lit_absent pat5 (strL "gave") (by decide) _
      (htri _ (by decide) (by decide) (by decide)))]
  rw [tryPatterns_cons_none _ _ _
    (searchToks_none_of_lit_absent pat6 (strL "donated") (by decide) _
      (htri _ (by decide) (by decide) (by decide)))]
  rw [tryPatterns_cons_some _ _ _ [renderNum g gs] _
    (by
      apply searchToks_of_reMatch
      rw [show pat7 = Tok.cap :: [Tok.ws, Tok.lit (strL "coin"),
        Tok.optC 's', Tok.ws, Tok.lit (strL "to"), Tok.ws,
        Tok.lit (strL "the"), Tok.ws, Tok.lit (strL "clan")] from rfl]
      exact reMatch_cap_some _ g gs (strL " coins to the clan") [] h
        (headNot_of_head isDigitComma ' ' _ (by decide)) (by decide))
    (by
      rw [show ([renderNum g gs].headD []) = renderNum g gs from rfl]
      exact capture_parse g gs h)]

theorem containsSub_nil_false (l : List Char) (h0 : l ≠ []) :
    containsSub l [] = false := by
  cases l with
  | nil => exact absurd rfl h0
  | cons a b => rfl

theorem extract8 (g : List Char) (gs : List (List Char)) (h : NumOK g gs) :
    parse_donation_message (strL "clan donation of " ++ renderNum g gs) =
      some (digitsVal (g ++ gs.join)) := by
  have hcl : (strL "clan donation of " ++ renderNum g gs).map toLowerC =
      strL "clan donation of " ++ renderNum g gs := by
    rw [List.map_append, lowerL_render g gs h]
    rfl
  have htri : ∀ l : List Char, l ≠ [] →
      (∀ c ∈ l, isDigitComma c = false) →
      containsSub l (strL "clan donation of ") = false →
      containsSub l (strL "clan donation of " ++ renderNum g gs) = false :=
    fun l h0 hl h1 => by
      have := containsSub_tripart_false l (renderNum g gs) h0 hl
        (renderNum_chars g gs h) (renderNum_ne_nil g gs h)
        (strL "clan donation of ") [] h1 (containsSub_nil_false l h0)
      rwa [List.append_nil] at this
  rw [parse_donation_eval _ (strL "clan") (by decide)
    (by rw [hcl]; exact containsSub_of_isPfx _ _ rfl)]
  rw [hcl]
  rw [show patterns = pat1 :: [pat2, pat3, pat4, pat5, pat6, pat7, pat8,
    pat9, pat10, pat11, pat12, pat13, pat14, pat15, pat16, pat17] from rfl]
  rw [tryPatterns_cons_none _ _ _
    (searchToks_none_of_lit_absent pat1 (strL "**") (by decide) _
      (htri _ (by decide) (by decide) (by decide)))]
  rw [tryPatterns_cons_none _ _ _
    (searchToks_none_of_lit_absent pat2 (strL "**") (by decide) _
      (htri _ (by decide) (by decide) (by decide)))]
  rw [tryPatterns_cons_none _ _ _
    (searchToks_none_of_lit_absent pat3 (strL "donated") (by decide) _
      (htri _ (by decide) (by decide) (by decide)))]
  rw [tryPatterns_cons_none _ _ _
    (searchToks_none_of_lit_absent pat4 (strL "contributed") (by decide) _
      (htri _ (by decide) (by decide) (by decide)))]
  rw [tryPatterns_cons_none _ _ _
    (searchToks_none_of_lit_absent pat5 (strL "gave") (by decide) _
      (htri _ (by decide) (by decide) (by decide)))]
  rw [tryPatterns_cons_none _ _ _
    (searchToks_none_of_lit_absent pat6 (strL "coin") (by decide) _
      (htri _ (by decide) (by decide) (by decide)))]
  rw [tryPatterns_cons_none _ _ _
    (searchToks_none_of_lit_absent pat7 (strL "coin") (by decide) _
      (htri _ (by decide) (by decide) (by decide)))]
  rw [tryPatterns_cons_some _ _ _ [renderNum g gs] _
    (by
      apply searchToks_of_reMatch
      rw [show strL "clan donation of " ++ renderNum g gs =
        strL "clan donation" ++ (' ' :: ('o' :: ('f' :: (' ' ::
          renderNum g gs)))) from rfl]
      rw [show pat8 = Tok.lit (strL "clan donation") ::
        (Tok.dotStarLazy :: [Tok.cap]) from rfl]
      rw [reMatch_lit_step (strL "clan donation")]
      rw [reMatch_dotStar_cons _ ' '
        ('o' :: ('f' :: (' ' :: renderNum g gs))) (by decide)
        (reMatch_cap_none_head _ ' ' _ (by decide))]
      rw [reMatch_dotStar_cons _ 'o' ('f' :: (' ' :: renderNum g gs))
        (by decide) (reMatch_cap_none_head _ 'o' _ (by decide))]
      rw [reMatch_dotStar_cons _ 'f' (' ' :: renderNum g gs) (by decide)
        (reMatch_cap_none_head _ 'f' _ (by decide))]
      rw [reMatch_dotStar_cons _ ' ' (renderNum g gs) (by decide)
        (reMatch_cap_none_head _ ' ' _ (by decide))]
      apply reMatch_dotStar_here
      have hc : reMatch [Tok.cap] (renderNum g gs ++ []) =
          some [renderNum g gs] :=
        reMatch_cap_some [] g gs [] [] h restOK_nil rfl
      rwa [List.append_nil] at hc)
    (by
      rw [show ([renderNum g gs].headD []) = renderNum g gs from rfl]
      exact capture_parse g gs h)]

theorem extract9 (g : List Char) (gs : List (List Char)) (h : NumOK g gs) :
    parse_donation_message
        (renderNum g gs ++ strL " coins added to clan") =
      some (digitsVal (g ++ gs.join)) := by
  have hcl : (renderNum g gs ++ strL " coins added to clan").map toLowerC =
      renderNum g gs ++ strL " coins added to clan" := by
    rw [List.map_append, lowerL_render g gs h]
    rfl
  have htri : ∀ l : List Char, l ≠ [] →
      (∀ c ∈ l, isDigitComma c = false) →
      containsSub l (strL " coins added to clan") = false →
      containsSub l (renderNum g gs ++ strL " coins added to clan") =
        false :=
    fun l h0 hl h2 => containsSub_tripart_false l (renderNum g gs) h0 hl
      (renderNum_chars g gs h) (renderNum_ne_nil g gs h)
      [] (strL " coins added to clan") (containsSub_nil_false l h0) h2
  rw [parse_donation_eval _ (strL "coins") (by decide)
    (by rw [hcl]; exact containsSub_append_left _ _ _ (by decide))]
  rw [hcl]
  rw [show patterns = pat1 :: [pat2, pat3, pat4, pat5, pat6, pat7, pat8,
    pat9, pat10, pat11, pat12, pat13, pat14, pat15, pat16, pat17] from rfl]
  rw [tryPatterns_cons_none _ _ _
    (searchToks_none_of_lit_absent pat1 (strL "**") (by decide) _
      (htri _ (by decide) (by decide) (by decide)))]
  rw [tryPatterns_cons_none _ _ _
    (searchToks_none_of_lit_absent pat2 (strL "**") (by decide) _
      (htri _ (by decide) (by decide) (by decide)))]
  rw [tryPatterns_cons_none _ _ _
    (searchToks_none_of_lit_absent pat3 (strL "donated") (by decide) _
      (htri _ (by decide) (by decide) (by decide)))]
  rw [tryPatterns_cons_none _ _ _
    (searchToks_none_of_lit_absent pat4 (strL "contributed") (by decide) _
      (htri _ (by decide) (by decide) (by decide)))]
  rw [tryPatterns_cons_none _ _ _
    (searchToks_none_of_lit_absent pat5 (strL "gave") (by decide) _
      (htri _ (by decide) (by decide) (by decide)))]
  rw [tryPatterns_cons_none _ _ _
    (searchToks_none_of_lit_absent pat6 (strL "donated") (by decide) _
      (htri _ (by decide) (by decide) (by decide)))]
  rw [tryPatterns_cons_none _ _ _
    (searchToks_none_of_lit_absent pat7 (strL "the") (by decide) _
      (htri _ (by decide) (by decide) (by decide)))]
  rw [tryPatterns_cons_none _ _ _
    (searchToks_none_of_lit_absent pat8 (strL "clan donation") (by decide) _
      (htri _ (by decide) (by decide) (by decide)))]
  rw [tryPatterns_cons_some _ _ _ [renderNum g gs] _
    (by
      apply searchToks_of_reMatch
      rw [show pat9 = Tok.cap :: [Tok.ws, Tok.lit (strL "coin"),
        Tok.optC 's', Tok.ws, Tok.lit (strL "added"), Tok.ws,
        Tok.lit (strL "to"), Tok.ws, Tok.lit (strL "clan")] from rfl]
      exact reMatch_cap_some _ g gs (strL " coins added to clan") [] h
        (headNot_of_head isDigitComma ' ' _ (by decide)) (by decide))
    (by
      rw [show ([renderNum g gs].headD []) = renderNum g gs from rfl]
      exact capture_parse g gs h)]

theorem extract10 (g : List Char) (gs : List (List Char)) (h : NumOK g gs) :
    parse_donation_message (strL "clan treasury now " ++ renderNum g gs) =
      some (digitsVal (g ++ gs.join)) := by
  have hcl : (strL "clan treasury now " ++ renderNum g gs).map toLowerC =
      strL "clan treasury now " ++ renderNum g gs := by
    rw [List.map_append, lowerL_render g gs h]
    rfl
  have htri : ∀ l : List Char, l ≠ [] →
      (∀ c ∈ l, isDigitComma c = false) →
      containsSub l (strL "clan treasury now ") = false →
      containsSub l (strL "clan treasury now " ++ renderNum g gs) =
        false :=
    fun l h0 hl h1 => by
      have := containsSub_tripart_false l (renderNum g gs) h0 hl
        (renderNum_chars g gs h) (renderNum_ne_nil g gs h)
        (strL "clan treasury now ") [] h1 (containsSub_nil_false l h0)
      rwa [List.append_nil] at this
  rw [parse_donation_eval _ (strL "clan") (by decide)
    (by rw [hcl]; exact containsSub_of_isPfx _ _ rfl)]
  rw [hcl]
  rw [show patterns = pat1 :: [pat2, pat3, pat4, pat5, pat6, pat7, pat8,
    pat9, pat10, pat11, pat12, pat13, pat14, pat15, pat16, pat17] from rfl]
  rw [tryPatterns_cons_none _ _ _
    (searchToks_none_of_lit_absent pat1 (strL "**") (by decide) _
      (htri _ (by decide) (by decide) (by decide)))]
  rw [tryPatterns_cons_none _ _ _
    (searchToks_none_of_lit_absent pat2 (strL "**") (by decide) _
      (htri _ (by decide) (by decide) (by decide)))]
  rw [tryPatterns_cons_none _ _ _
    (searchToks_none_of_lit_absent pat3 (strL "donated") (by decide) _
      (htri _ (by decide) (by decide) (by decide)))]
  rw [tryPatterns_cons_none _ _ _
    (searchToks_none_of_lit_absent pat4 (strL "contributed") (by decide) _
      (htri _ (by decide) (by decide) (by decide)))]
  rw [tryPatterns_cons_none _ _ _
    (searchToks_none_of_lit_absent pat5 (strL "gave") (by decide) _
      (htri _ (by decide) (by decide) (by decide)))]
  rw [tryPatterns_cons_none _ _ _
    (searchToks_none_of_lit_absent pat6 (strL "coin") (by decide) _
      (htri _ (by decide) (by decide) (by decide)))]
  rw [tryPatterns_cons_none _ _ _
    (searchToks_none_of_lit_absent pat7 (strL "coin") (by decide) _
      (htri _ (by decide) (by decide) (by decide)))]
  rw [tryPatterns_cons_none _ _ _
    (searchToks_none_of_lit_absent pat8 (strL "clan donation") (by decide)
      _ (htri _ (by decide) (by decide) (by decide)))]
  rw [tryPatterns_cons_none _ _ _
    (searchToks_none_of_lit_absent pat9 (strL "coin") (by decide) _
      (htri _ (by decide) (by decide) (by decide)))]
  rw [tryPatterns_cons_some _ _ _ [renderNum g gs] _
    (by
      apply searchToks_of_reMatch
      rw [show strL "clan treasury now " ++ renderNum g gs =
        strL "clan" ++ (' ' :: (strL "treasury" ++ (' ' :: ('n' :: ('o' ::
          ('w' :: (' ' :: renderNum g gs))))))) from rfl]
      rw [show pat10 = Tok.lit (strL "clan") :: (Tok.ws ::
        (Tok.lit (strL "treasury") :: (Tok.dotStarLazy :: [Tok.cap])))
        from rfl]
      rw [reMatch_lit_step (strL "clan")]
      rw [reMatch_ws_step _ ' '
        (strL "treasury" ++ (' ' :: ('n' :: ('o' :: ('w' :: (' ' ::
          renderNum g gs)))))) (by decide)
        (headNot_of_head isSpaceC 't' _ (by decide))]
      rw [reMatch_lit_step (strL "treasury")]
      rw [reMatch_dotStar_cons _ ' '
        ('n' :: ('o' :: ('w' :: (' ' :: renderNum g gs)))) (by decide)
        (reMatch_cap_none_head _ ' ' _ (by decide))]
      rw [reMatch_dotStar_cons _ 'n' ('o' :: ('w' :: (' ' ::
        renderNum g gs))) (by decide)
        (reMatch_cap_none_head _ 'n' _ (by decide))]
      rw [reMatch_dotStar_cons _ 'o' ('w' :: (' ' :: renderNum g gs))
        (by decide) (reMatch_cap_none_head _ 'o' _ (by decide))]
      rw [reMatch_dotStar_cons _ 'w' (' ' :: renderNum g gs) (by decide)
        (reMatch_cap_none_head _ 'w' _ (by decide))]
      rw [reMatch_dotStar_cons _ ' ' (renderNum g gs) (by decide)
        (reMatch_cap_none_head _ ' ' _ (by decide))]
      apply reMatch_dotStar_here
      have hc : reMatch [Tok.cap] (renderNum g gs ++ []) =
          some [renderNum g gs] :=
        reMatch_cap_some [] g gs [] [] h restOK_nil rfl
      rwa [List.append_nil] at hc)
    (by
      rw [show ([renderNum g gs].headD []) = renderNum g gs from rfl]
      exact capture_parse g gs h)]

theorem extract11 (g : List Char) (gs : List (List Char)) (h : NumOK g gs) :
    parse_donation_message
        (renderNum g gs ++ strL " coins clan donation") =
      some (digitsVal (g ++ gs.join)) := by
  have hcl : (renderNum g gs ++ strL " coins clan donation").map toLowerC =
      renderNum g gs ++ strL " coins clan donation" := by
    rw [List.map_append, lowerL_render g gs h]
    rfl
  have htri : ∀ l : List Char, l ≠ [] →
      (∀ c ∈ l, isDigitComma c = false) →
      containsSub l (strL " coins clan donation") = false →
      containsSub l (renderNum g gs ++ strL " coins clan donation") =
        false :=
    fun l h0 hl h2 => containsSub_tripart_false l (renderNum g gs) h0 hl
      (renderNum_chars g gs h) (renderNum_ne_nil g gs h)
      [] (strL " coins clan donation") (containsSub_nil_false l h0) h2
  rw [parse_donation_eval _ (strL "coins") (by decide)
    (by rw [hcl]; exact containsSub_append_left _ _ _ (by decide))]
  rw [hcl]
  rw [show patterns = pat1 :: [pat2, pat3, pat4, pat5, pat6, pat7, pat8,
    pat9, pat10, pat11, pat12, pat13, pat14, pat15, pat16, pat17] from rfl]
  rw [tryPatterns_cons_none _ _ _
    (searchToks_none_of_lit_absent pat1 (strL "**") (by decide) _
      (htri _ (by decide) (by decide) (by decide)))]
  rw [tryPatterns_cons_none _ _ _
    (searchToks_none_of_lit_absent pat2 (strL "**") (by decide) _
      (htri _ (by decide) (by decide) (by decide)))]
  rw [tryPatterns_cons_none _ _ _
    (searchToks_none_of_lit_absent pat3 (strL "donated") (by decide) _
      (htri _ (by decide) (by decide) (by decide)))]
  rw [tryPatterns_cons_none _ _ _
    (searchToks_none_of_lit_absent pat4 (strL "contributed") (by decide) _
      (htri _ (by decide) (by decide) (by decide)))]
  rw [tryPatterns_cons_none _ _ _
    (searchToks_none_of_lit_absent pat5 (strL "gave") (by decide) _
      (htri _ (by decide) (by decide) (by decide)))]
  rw [tryPatterns_cons_none _ _ _
    (searchToks_none_of_lit_absent pat6 (strL "donated") (by decide) _
      (htri _ (by decide) (by decide) (by decide)))]
  rw [tryPatterns_cons_none _ _ _
    (searchToks_none_of_lit_absent pat7 (strL "the") (by decide) _
      (htri _ (by decide) (by decide) (by decide)))]
  rw [tryPatterns_cons_none _ _ _
    (by
      rw [show pat8 = Tok.lit ('c' :: strL "lan donation") ::
        (Tok.dotStarLazy :: [Tok.cap]) from rfl]
      rw [searchToks_litled_render_skip 'c' (strL "lan donation") _
        (by decide) g gs _ h]
      decide)]
  rw [tryPatterns_cons_none _ _ _
    (searchToks_none_of_lit_absent pat9 (strL "added") (by decide) _
      (htri _ (by decide) (by decide) (by decide)))]
  rw [tryPatterns_cons_none _ _ _
    (searchToks_none_of_lit_absent pat10 (strL "treasury") (by decide) _
      (htri _ (by decide) (by decide) (by decide)))]
  rw [tryPatterns_cons_some _ _ _ [renderNum g gs] _
    (by
      apply searchToks_of_reMatch
      rw [show pat11 = Tok.cap :: [Tok.ws, Tok.lit (strL "coin"),
        Tok.optC 's', Tok.ws, Tok.lit (strL "clan"), Tok.ws,
        Tok.lit (strL "donation")] from rfl]
      exact reMatch_cap_some _ g gs (strL " coins clan donation") [] h
        (headNot_of_head isDigitComma ' ' _ (by decide)) (by decide))
    (by
      rw [show ([renderNum g gs].headD []) = renderNum g gs from rfl]
      exact capture_parse g gs h)]

theorem extract12 (g : List Char) (gs : List (List Char)) (h : NumOK g gs) :
    parse_donation_message
        (strL "deposited " ++ renderNum g gs ++ strL " coins") =
      some (digitsVal (g ++ gs.join)) := by
  have hcl : (strL "deposited " ++ renderNum g gs ++
      strL " coins").map toLowerC =
      strL "deposited " ++ renderNum g gs ++ strL " coins" := by
    rw [List.map_append, List.map_append, lowerL_render g gs h]
    rfl
  have htri : ∀ l : List Char, l ≠ [] →
      (∀ c ∈ l, isDigitComma c = false) →
      containsSub l (strL "deposited ") = false →
      containsSub l (strL " coins") = false →
      containsSub l
        (strL "deposited " ++ renderNum g gs ++ strL " coins") = false :=
    fun l h0 hl h1 h2 => containsSub_tripart_false l (renderNum g gs) h0 hl
      (renderNum_chars g gs h) (renderNum_ne_nil g gs h)
      (strL "deposited ") (strL " coins") h1 h2
  rw [parse_donation_eval _ (strL "deposited") (by decide)
    (by rw [hcl]; exact containsSub_of_isPfx _ _ rfl)]
  rw [hcl]
  rw [show patterns = pat1 :: [pat2, pat3, pat4, pat5, pat6, pat7, pat8,
    pat9, pat10, pat11, pat12, pat13, pat14, pat15, pat16, pat17] from rfl]
  rw [tryPatterns_cons_none _ _ _
    (searchToks_none_of_lit_absent pat1 (strL "**") (by decide) _
      (htri _ (by decide) (by decide) (by decide) (by decide)))]
  rw [tryPatterns_cons_none _ _ _
    (searchToks_none_of_lit_absent pat2 (strL "**") (by decide) _
      (htri _ (by decide) (by decide) (by decide) (by decide)))]
  rw [tryPatterns_cons_none _ _ _
    (searchToks_none_of_lit_absent pat3 (strL "donated") (by decide) _
      (htri _ (by decide) (by decide) (by decide) (by decide)))]
  rw [tryPatterns_cons_none _ _ _
    (searchToks_none_of_lit_absent pat4 (strL "contributed") (by decide) _
      (htri _ (by decide) (by decide) (by decide) (by decide)))]
  rw [tryPatterns_cons_none _ _ _
    (searchToks_none_of_lit_absent pat5 (strL "gave") (by decide) _
      (htri _ (by decide) (by decide) (by decide) (by decide)))]
  rw [tryPatterns_cons_none _ _ _
    (searchToks_none_of_lit_absent pat6 (strL "donated") (by decide) _
      (htri _ (by decide) (by decide) (by decide) (by decide)))]
  rw [tryPatterns_cons_none _ _ _
    (searchToks_none_of_lit_absent pat7 (strL "the") (by decide) _
      (htri _ (by decide) (by decide) (by decide) (by decide)))]
  rw [tryPatterns_cons_none _ _ _
    (searchToks_none_of_lit_absent pat8 (strL "clan donation") (by decide) _
      (htri _ (by decide) (by decide) (by decide) (by decide)))]
  rw [tryPatterns_cons_none _ _ _
    (searchToks_none_of_lit_absent pat9 (strL "added") (by decide) _
      (htri _ (by decide) (by decide) (by decide) (by decide)))]
  rw [tryPatterns_cons_none _ _ _
    (searchToks_none_of_lit_absent pat10 (strL "treasury") (by decide) _
      (htri _ (by decide) (by decide) (by decide) (by decide)))]
  rw [tryPatterns_cons_none _ _ _
    (searchToks_none_of_lit_absent pat11 (strL "clan") (by decide) _
      (htri _ (by decide) (by decide) (by decide) (by decide)))]
  rw [tryPatterns_cons_some _ _ _ [renderNum g gs] _
    (by
      apply searchToks_of_reMatch
      rw [show strL "deposited " ++ renderNum g gs ++ strL " coins" =
        strL "deposited" ++ (' ' :: (renderNum g gs ++ strL " coins"))
        from rfl]
      rw [show pat12 = Tok.lit (strL "deposited") :: (Tok.ws ::
        (Tok.cap :: [Tok.ws, Tok.lit (strL "coin"), Tok.optC 's']))
        from rfl]
      rw [reMatch_lit_step (strL "deposited")]
      rw [reMatch_ws_step _ ' ' (renderNum g gs ++ strL " coins")
        (by decide) (headNot_space_render g gs h _)]
      exact reMatch_cap_some _ g gs (strL " coins") [] h
        (headNot_of_head isDigitComma ' ' _ (by decide)) (by decide))
    (by
      rw [show ([renderNum g gs].headD []) = renderNum g gs from rfl]
      exact capture_parse g gs h)]

theorem extract13 (g : List Char) (gs : List (List Char)) (h : NumOK g gs) :
    parse_donation_message (renderNum g gs ++ strL " coins deposited") =
      some (digitsVal (g ++ gs.join)) := by
  have hcl : (renderNum g gs ++ strL " coins deposited").map toLowerC =
      renderNum g gs ++ strL " coins deposited" := by
    rw [List.map_append, lowerL_render g gs h]
    rfl
  have htri : ∀ l : List Char, l ≠ [] →
      (∀ c ∈ l, isDigitComma c = false) →
      containsSub l (strL " coins deposited") = false →
      containsSub l (renderNum g gs ++ strL " coins deposited") = false :=
    fun l h0 hl h2 => containsSub_tripart_false l (renderNum g gs) h0 hl
      (renderNum_chars g gs h) (renderNum_ne_nil g gs h)
      [] (strL " coins deposited") (containsSub_nil_false l h0) h2
  rw [parse_donation_eval _ (strL "coins") (by decide)
    (by rw [hcl]; exact containsSub_append_left _ _ _ (by decide))]
  rw [hcl]
  rw [show patterns = pat1 :: [pat2, pat3, pat4, pat5, pat6, pat7, pat8,
    pat9, pat10, pat11, pat12, pat13, pat14, pat15, pat16, pat17] from rfl]
  rw [tryPatterns_cons_none _ _ _
    (searchToks_none_of_lit_absent pat1 (strL "**") (by decide) _
      (htri _ (by decide) (by decide) (by decide)))]
  rw [tryPatterns_cons_none _ _ _
    (searchToks_none_of_lit_absent pat2 (strL "**") (by decide) _
      (htri _ (by decide) (by decide) (by decide)))]
  rw [tryPatterns_cons_none _ _ _
    (searchToks_none_of_lit_absent pat3 (strL "donated") (by decide) _
      (htri _ (by decide) (by decide) (by decide)))]
  rw [tryPatterns_cons_none _ _ _
    (searchToks_none_of_lit_absent pat4 (strL "contributed") (by decide) _
      (htri _ (by decide) (by decide) (by decide)))]
  rw [tryPatterns_cons_none _ _ _
    (searchToks_none_of_lit_absent pat5 (strL "gave") (by decide) _
      (htri _ (by decide) (by decide) (by decide)))]
  rw [tryPatterns_cons_none _ _ _
    (searchToks_none_of_lit_absent pat6 (strL "donated") (by decide) _
      (htri _ (by decide) (by decide) (by decide)))]
  rw [tryPatterns_cons_none _ _ _
    (searchToks_none_of_lit_absent pat7 (strL "the") (by decide) _
      (htri _ (by decide) (by decide) (by decide)))]
  rw [tryPatterns_cons_none _ _ _
    (searchToks_none_of_lit_absent pat8 (strL "clan donation") (by decide) _
      (htri _ (by decide) (by decide) (by decide)))]
  rw [tryPatterns_cons_none _ _ _
    (searchToks_none_of_lit_absent pat9 (strL "added") (by decide) _
      (htri _ (by decide) (by decide) (by decide)))]
  rw [tryPatterns_cons_none _ _ _
    (searchToks_none_of_lit_absent pat10 (strL "treasury") (by decide) _
      (htri _ (by decide) (by decide) (by decide)))]
  rw [tryPatterns_cons_none _ _ _
    (searchToks_none_of_lit_absent pat11 (strL "clan") (by decide) _
      (htri _ (by decide) (by decide) (by decide)))]
  rw [tryPatterns_cons_none _ _ _
    (by
      rw [show pat12 = Tok.lit ('d' :: strL "eposited") :: (Tok.ws ::
        (Tok.cap :: [Tok.ws, Tok.lit (strL "coin"), Tok.optC 's']))
        from rfl]
      rw [searchToks_litled_render_skip 'd' (strL "eposited") _
        (by decide) g gs _ h]
      decide)]
  rw [tryPatterns_cons_some _ _ _ [renderNum g gs] _
    (by
      apply searchToks_of_reMatch
      rw [show pat13 = Tok.cap :: [Tok.ws, Tok.lit (strL "coin"),
        Tok.optC 's', Tok.ws, Tok.lit (strL "deposited")] from rfl]
      exact reMatch_cap_some _ g gs (strL " coins deposited") [] h
        (headNot_of_head isDigitComma ' ' _ (by decide)) (by decide))
    (by
      rw [show ([renderNum g gs].headD []) = renderNum g gs from rfl]
      exact capture_parse g gs h)]

theorem extract14 (g : List Char) (gs : List (List Char)) (h : NumOK g gs) :
    parse_donation_message (renderNum g gs ++ strL " rubies donated") =
      some (digitsVal (g ++ gs.join)) := by
  have hcl : (renderNum g gs ++ strL " rubies donated").map toLowerC =
      renderNum g gs ++ strL " rubies donated" := by
    rw [List.map_append, lowerL_render g gs h]
    rfl
  have htri : ∀ l : List Char, l ≠ [] →
      (∀ c ∈ l, isDigitComma c = false) →
      containsSub l (strL " rubies donated") = false →
      containsSub l (renderNum g gs ++ strL " rubies donated") = false :=
    fun l h0 hl h2 => containsSub_tripart_false l (renderNum g gs) h0 hl
      (renderNum_chars g gs h) (renderNum_ne_nil g gs h)
      [] (strL " rubies donated") (containsSub_nil_false l h0) h2
  rw [parse_donation_eval _ (strL "rubies") (by decide)
    (by rw [hcl]; exact containsSub_append_left _ _ _ (by decide))]
  rw [hcl]
  rw [show patterns = pat1 :: [pat2, pat3, pat4, pat5, pat6, pat7, pat8,
    pat9, pat10, pat11, pat12, pat13, pat14, pat15, pat16, pat17] from rfl]
  rw [tryPatterns_cons_none _ _ _
    (searchToks_none_of_lit_absent pat1 (strL "**") (by decide) _
      (htri _ (by decide) (by decide) (by decide)))]
  rw [tryPatterns_cons_none _ _ _
    (searchToks_none_of_lit_absent pat2 (strL "**") (by decide) _
      (htri _ (by decide) (by decide) (by decide)))]
  rw [tryPatterns_cons_none _ _ _
    (searchToks_none_of_lit_absent pat3 (strL "coin") (by decide) _
      (htri _ (by decide) (by decide) (by decide)))]
  rw [tryPatterns_cons_none _ _ _
    (searchToks_none_of_lit_absent pat4 (strL "coin") (by decide) _
      (htri _ (by decide) (by decide) (by decide)))]
  rw [tryPatterns_cons_none _ _ _
    (searchToks_none_of_lit_absent pat5 (strL "coin") (by decide) _
      (htri _ (by decide) (by decide) (by decide)))]
  rw [tryPatterns_cons_none _ _ _
    (searchToks_none_of_lit_absent pat6 (strL "coin") (by decide) _
      (htri _ (by decide) (by decide) (by decide)))]
  rw [tryPatterns_cons_none _ _ _
    (searchToks_none_of_lit_absent pat7 (strL "coin") (by decide) _
      (htri _ (by decide) (by decide) (by decide)))]
  rw [tryPatterns_cons_none _ _ _
    (searchToks_none_of_lit_absent pat8 (strL "clan donation") (by decide)
      _ (htri _ (by decide) (by decide) (by decide)))]
  rw [tryPatterns_cons_none _ _ _
    (searchToks_none_of_lit_absent pat9 (strL "coin") (by decide) _
      (htri _ (by decide) (by decide) (by decide)))]
  rw [tryPatterns_cons_none _ _ _
    (searchToks_none_of_lit_absent pat10 (strL "treasury") (by decide) _
      (htri _ (by decide) (by decide) (by decide)))]
  rw [tryPatterns_cons_none _ _ _
    (searchToks_none_of_lit_absent pat11 (strL "coin") (by decide) _
      (htri _ (by decide) (by decide) (by decide)))]
  rw [tryPatterns_cons_none _ _ _
    (searchToks_none_of_lit_absent pat12 (strL "deposited") (by decide) _
      (htri _ (by decide) (by decide) (by decide)))]
  rw [tryPatterns_cons_none _ _ _
    (searchToks_none_of_lit_absent pat13 (strL "coin") (by decide) _
      (htri _ (by decide) (by decide) (by decide)))]
  rw [tryPatterns_cons_some _ _ _ [renderNum g gs] _
    (by
      apply searchToks_of_reMatch
      rw [show pat14 = Tok.cap :: [Tok.ws, Tok.lit (strL "rubie"),
        Tok.optC 's', Tok.ws, Tok.lit (strL "donated")] from rfl]
      exact reMatch_cap_some _ g gs (strL " rubies donated") [] h
        (headNot_of_head isDigitComma ' ' _ (by decide)) (by decide))
    (by
      rw [show ([renderNum g gs].headD []) = renderNum g gs from rfl]
      exact capture_parse g gs h)]

theorem extract15 (g : List Char) (gs : List (List Char)) (h : NumOK g gs) :
    parse_donation_message
        (strL "donated " ++ renderNum g gs ++ strL " rubies") =
      some (digitsVal (g ++ gs.join)) := by
  have hcl : (strL "donated " ++ renderNum g gs ++
      strL " rubies").map toLowerC =
      strL "donated " ++ renderNum g gs ++ strL " rubies" := by
    rw [List.map_append, List.map_append, lowerL_render g gs h]
    rfl
  have htri : ∀ l : List Char, l ≠ [] →
      (∀ c ∈ l, isDigitComma c = false) →
      containsSub l (strL "donated ") = false →
      containsSub l (strL " rubies") = false →
      containsSub l
        (strL "donated " ++ renderNum g gs ++ strL " rubies") = false :=
    fun l h0 hl h1 h2 => containsSub_tripart_false l (renderNum g gs) h0 hl
      (renderNum_chars g gs h) (renderNum_ne_nil g gs h)
      (strL "donated ") (strL " rubies") h1 h2
  rw [parse_donation_eval _ (strL "donated") (by decide)
    (by rw [hcl]; exact containsSub_of_isPfx _ _ rfl)]
  rw [hcl]
  rw [show patterns = pat1 :: [pat2, pat3, pat4, pat5, pat6, pat7, pat8,
    pat9, pat10, pat11, pat12, pat13, pat14, pat15, pat16, pat17] from rfl]
  rw [tryPatterns_cons_none _ _ _
    (searchToks_none_of_lit_absent pat1 (strL "**") (by decide) _
      (htri _ (by decide) (by decide) (by decide) (by decide)))]
  rw [tryPatterns_cons_none _ _ _
    (searchToks_none_of_lit_absent pat2 (strL "**") (by decide) _
      (htri _ (by decide) (by decide) (by decide) (by decide)))]
  rw [tryPatterns_cons_none _ _ _
    (searchToks_none_of_lit_absent pat3 (strL "coin") (by decide) _
      (htri _ (by decide) (by decide) (by decide) (by decide)))]
  rw [tryPatterns_cons_none _ _ _
    (searchToks_none_of_lit_absent pat4 (strL "coin") (by decide) _
      (htri _ (by decide) (by decide) (by decide) (by decide)))]
  rw [tryPatterns_cons_none _ _ _
    (searchToks_none_of_lit_absent pat5 (strL "coin") (by decide) _
      (htri _ (by decide) (by decide) (by decide) (by decide)))]
  rw [tryPatterns_cons_none _ _ _
    (searchToks_none_of_lit_absent pat6 (strL "coin") (by decide) _
      (htri _ (by decide) (by decide) (by decide) (by decide)))]
  rw [tryPatterns_cons_none _ _ _
    (searchToks_none_of_lit_absent pat7 (strL "coin") (by decide) _
      (htri _ (by decide) (by decide) (by decide) (by decide)))]
  rw [tryPatterns_cons_none _ _ _
    (searchToks_none_of_lit_absent pat8 (strL "clan donation") (by decide)
      _ (htri _ (by decide) (by decide) (by decide) (by decide)))]
  rw [tryPatterns_cons_none _ _ _
    (searchToks_none_of_lit_absent pat9 (strL "coin") (by decide) _
      (htri _ (by decide) (by decide) (by decide) (by decide)))]
  rw [tryPatterns_cons_none _ _ _
    (searchToks_none_of_lit_absent pat10 (strL "treasury") (by decide) _
      (htri _ (by decide) (by decide) (by decide) (by decide)))]
  rw [tryPatterns_cons_none _ _ _
    (searchToks_none_of_lit_absent pat11 (strL "coin") (by decide) _
      (htri _ (by decide) (by decide) (by decide) (by decide)))]
  rw [tryPatterns_cons_none _ _ _
    (searchToks_none_of_lit_absent pat12 (strL "coin") (by decide) _
      (htri _ (by decide) (by decide) (by decide) (by decide)))]
  rw [tryPatterns_cons_none _ _ _
    (searchToks_none_of_lit_absent pat13 (strL "coin") (by decide) _
      (htri _ (by decide) (by decide) (by decide) (by decide)))]
  rw [tryPatterns_cons_none _ _ _
    (by
      rw [show pat14 = Tok.cap :: [Tok.ws, Tok.lit (strL "rubie"),
        Tok.optC 's', Tok.ws, Tok.lit (strL "donated")] from rfl]
      rw [show strL "donated " ++ renderNum g gs ++ strL " rubies" =
        strL "donated " ++ (renderNum g gs ++ strL " rubies") from
        List.append_assoc _ _ _]
      rw [searchToks_skip_nodigit_cap _ (strL "donated ") _ (by decide)]
      rw [searchToks_capled_render_skip _ g gs (strL " rubies") h
        (headNot_of_head isDigitComma ' ' _ (by decide))
        (fun c t hc => reMatch_ws_none _ c t (digitComma_not_space c hc))
        (by decide)]
      decide)]
  rw [tryPatterns_cons_some _ _ _ [renderNum g gs] _
    (by
      apply searchToks_of_reMatch
      rw [show strL "donated " ++ renderNum g gs ++ strL " rubies" =
        strL "donated" ++ (' ' :: (renderNum g gs ++ strL " rubies"))
        from rfl]
      rw [show pat15 = Tok.lit (strL "donated") :: (Tok.ws :: (Tok.cap ::
        [Tok.ws, Tok.lit (strL "rubie"), Tok.optC 's'])) from rfl]
      rw [reMatch_lit_step (strL "donated")]
      rw [reMatch_ws_step _ ' ' (renderNum g gs ++ strL " rubies")
        (by decide) (headNot_space_render g gs h _)]
      exact reMatch_cap_some _ g gs (strL " rubies") [] h
        (headNot_of_head isDigitComma ' ' _ (by decide)) (by decide))
    (by
      rw [show ([renderNum g gs].headD []) = renderNum g gs from rfl]
      exact capture_parse g gs h)]

theorem extract16 (g : List Char) (gs : List (List Char)) (h : NumOK g gs) :
    parse_donation_message (renderNum g gs ++ strL " rubies to the clan") =
      some (digitsVal (g ++ gs.join)) := by
  have hcl : (renderNum g gs ++ strL " rubies to the clan").map toLowerC =
      renderNum g gs ++ strL " rubies to the clan" := by
    rw [List.map_append, lowerL_render g gs h]
    rfl
  have htri : ∀ l : List Char, l ≠ [] →
      (∀ c ∈ l, isDigitComma c = false) →
      containsSub l (strL " rubies to the clan") = false →
      containsSub l (renderNum g gs ++ strL " rubies to the clan") =
        false :=
    fun l h0 hl h2 => containsSub_tripart_false l (renderNum g gs) h0 hl
      (renderNum_chars g gs h) (renderNum_ne_nil g gs h)
      [] (strL " rubies to the clan") (containsSub_nil_false l h0) h2
  rw [parse_donation_eval _ (strL "rubies") (by decide)
    (by rw [hcl]; exact containsSub_append_left _ _ _ (by decide))]
  rw [hcl]
  rw [show patterns = pat1 :: [pat2, pat3, pat4, pat5, pat6, pat7, pat8,
    pat9, pat10, pat11, pat12, pat13, pat14, pat15, pat16, pat17] from rfl]
  rw [tryPatterns_cons_none _ _ _
    (searchToks_none_of_lit_absent pat1 (strL "**") (by decide) _
      (htri _ (by decide) (by decide) (by decide)))]
  rw [tryPatterns_cons_none _ _ _
    (searchToks_none_of_lit_absent pat2 (strL "**") (by decide) _
      (htri _ (by decide) (by decide) (by decide)))]
  rw [tryPatterns_cons_none _ _ _
    (searchToks_none_of_lit_absent pat3 (strL "coin") (by decide) _
      (htri _ (by decide) (by decide) (by decide)))]
  rw [tryPatterns_cons_none _ _ _
    (searchToks_none_of_lit_absent pat4 (strL "coin") (by decide) _
      (htri _ (by decide) (by decide) (by decide)))]
  rw [tryPatterns_cons_none _ _ _
    (searchToks_none_of_lit_absent pat5 (strL "coin") (by decide) _
      (htri _ (by decide) (by decide) (by decide)))]
  rw [tryPatterns_cons_none _ _ _
    (searchToks_none_of_lit_absent pat6 (strL "coin") (by decide) _
      (htri _ (by decide) (by decide) (by decide)))]
  rw [tryPatterns_cons_none _ _ _
    (searchToks_none_of_lit_absent pat7 (strL "coin") (by decide) _
      (htri _ (by decide) (by decide) (by decide)))]
  rw [tryPatterns_cons_none _ _ _
    (searchToks_none_of_lit_absent pat8 (strL "clan donation") (by decide)
      _ (htri _ (by decide) (by decide) (by decide)))]
  rw [tryPatterns_cons_none _ _ _
    (searchToks_none_of_lit_absent pat9 (strL "coin") (by decide) _
      (htri _ (by decide) (by decide) (by decide)))]
  rw [tryPatterns_cons_none _ _ _
    (searchToks_none_of_lit_absent pat10 (strL "treasury") (by decide) _
      (htri _ (by decide) (by decide) (by decide)))]
  rw [tryPatterns_cons_none _ _ _
    (searchToks_none_of_lit_absent pat11 (strL "coin") (by decide) _
      (htri _ (by decide) (by decide) (by decide)))]
  rw [tryPatterns_cons_none _ _ _
    (searchToks_none_of_lit_absent pat12 (strL "deposited") (by decide) _
      (htri _ (by decide) (by decide) (by decide)))]
  rw [tryPatterns_cons_none _ _ _
    (searchToks_none_of_lit_absent pat13 (strL "coin") (by decide) _
      (htri _ (by decide) (by decide) (by decide)))]
  rw [tryPatterns_cons_none _ _ _
    (searchToks_none_of_lit_absent pat14 (strL "donated") (by decide) _
      (htri _ (by decide) (by decide) (by decide)))]
  rw [tryPatterns_cons_none _ _ _
    (searchToks_none_of_lit_absent pat15 (strL "donated") (by decide) _
      (htri _ (by decide) (by decide) (by decide)))]
  rw [tryPatterns_cons_some _ _ _ [renderNum g gs] _
    (by
      apply searchToks_of_reMatch
      rw [show pat16 = Tok.cap :: [Tok.ws, Tok.lit (strL "rubie"),
        Tok.optC 's', Tok.ws, Tok.lit (strL "to"), Tok.ws,
        Tok.lit (strL "the"), Tok.ws, Tok.lit (strL "clan")] from rfl]
      exact reMatch_cap_some _ g gs (strL " rubies to the clan") [] h
        (headNot_of_head isDigitComma ' ' _ (by decide)) (by decide))
    (by
      rw [show ([renderNum g gs].headD []) = renderNum g gs from rfl]
      exact capture_parse g gs h)]

theorem extract17 (g : List Char) (gs : List (List Char)) (h : NumOK g gs) :
    parse_donation_message
        (renderNum g gs ++ strL " rubies added to clan") =
      some (digitsVal (g ++ gs.join)) := by
  have hcl : (renderNum g gs ++ strL " rubies added to clan").map
      toLowerC = renderNum g gs ++ strL " rubies added to clan" := by
    rw [List.map_append, lowerL_render g gs h]
    rfl
  have htri : ∀ l : List Char, l ≠ [] →
      (∀ c ∈ l, isDigitComma c = false) →
      containsSub l (strL " rubies added to clan") = false →
      containsSub l (renderNum g gs ++ strL " rubies added to clan") =
        false :=
    fun l h0 hl h2 => containsSub_tripart_false l (renderNum g gs) h0 hl
      (renderNum_chars g gs h) (renderNum_ne_nil g gs h)
      [] (strL " rubies added to clan") (containsSub_nil_false l h0) h2
  rw [parse_donation_eval _ (strL "rubies") (by decide)
    (by rw [hcl]; exact containsSub_append_left _ _ _ (by decide))]
  rw [hcl]
  rw [show patterns = pat1 :: [pat2, pat3, pat4, pat5, pat6, pat7, pat8,
    pat9, pat10, pat11, pat12, pat13, pat14, pat15, pat16, pat17] from rfl]
  rw [tryPatterns_cons_none _ _ _
    (searchToks_none_of_lit_absent pat1 (strL "**") (by decide) _
      (htri _ (by decide) (by decide) (by decide)))]
  rw [tryPatterns_cons_none _ _ _
    (searchToks_none_of_lit_absent pat2 (strL "**") (by decide) _
      (htri _ (by decide) (by decide) (by decide)))]
  rw [tryPatterns_cons_none _ _ _
    (searchToks_none_of_lit_absent pat3 (strL "coin") (by decide) _
      (htri _ (by decide) (by decide) (by decide)))]
  rw [tryPatterns_cons_none _ _ _
    (searchToks_none_of_lit_absent pat4 (strL "coin") (by decide) _
      (htri _ (by decide) (by decide) (by decide)))]
  rw [tryPatterns_cons_none _ _ _
    (searchToks_none_of_lit_absent pat5 (strL "coin") (by decide) _
      (htri _ (by decide) (by decide) (by decide)))]
  rw [tryPatterns_cons_none _ _ _
    (searchToks_none_of_lit_absent pat6 (strL "coin") (by decide) _
      (htri _ (by decide) (by decide) (by decide)))]
  rw [tryPatterns_cons_none _ _ _
    (searchToks_none_of_lit_absent pat7 (strL "coin") (by decide) _
      (htri _ (by decide) (by decide) (by decide)))]
  rw [tryPatterns_cons_none _ _ _
    (searchToks_none_of_lit_absent pat8 (strL "clan donation") (by decide)
      _ (htri _ (by decide) (by decide) (by decide)))]
  rw [tryPatterns_cons_none _ _ _
    (searchToks_none_of_lit_absent pat9 (strL "coin") (by decide) _
      (htri _ (by decide) (by decide) (by decide)))]
  rw [tryPatterns_cons_none _ _ _
    (searchToks_none_of_lit_absent pat10 (strL "treasury") (by decide) _
      (htri _ (by decide) (by decide) (by decide)))]
  rw [tryPatterns_cons_none _ _ _
    (searchToks_none_of_lit_absent pat11 (strL "coin") (by decide) _
      (htri _ (by decide) (by decide) (by decide)))]
  rw [tryPatterns_cons_none _ _ _
    (searchToks_none_of_lit_absent pat12 (strL "deposited") (by decide) _
      (htri _ (by decide) (by decide) (by decide)))]
  rw [tryPatterns_cons_none _ _ _
    (searchToks_none_of_lit_absent pat13 (strL "coin") (by decide) _
      (htri _ (by decide) (by decide) (by decide)))]
  rw [tryPatterns_cons_none _ _ _
    (searchToks_none_of_lit_absent pat14 (strL "donated") (by decide) _
      (htri _ (by decide) (by decide) (by decide)))]
  rw [tryPatterns_cons_none _ _ _
    (searchToks_none_of_lit_absent pat15 (strL "donated") (by decide) _
      (htri _ (by decide) (by decide) (by decide)))]
  rw [tryPatterns_cons_none _ _ _
    (searchToks_none_of_lit_absent pat16 (strL "the") (by decide) _
      (htri _ (by decide) (by decide) (by decide)))]
  rw [tryPatterns_cons_some _ _ _ [renderNum g gs] _
    (by
      apply searchToks_of_reMatch
      rw [show pat17 = Tok.cap :: [Tok.ws, Tok.lit (strL "rubie"),
        Tok.optC 's', Tok.ws, Tok.lit (strL "added"), Tok.ws,
        Tok.lit (strL "to"), Tok.ws, Tok.lit (strL "clan")] from rfl]
      exact reMatch_cap_some _ g gs (strL " rubies added to clan") [] h
        (headNot_of_head isDigitComma ' ' _ (by decide)) (by decide))
    (by
      rw [show ([renderNum g gs].headD []) = renderNum g gs from rfl]
      exact capture_parse g gs h)]

/-- C6: for every supported phrasing in the extraction rule set of
`parse_donation_message`, applied to any grouped numeral (digits with
optional comma thousands separators), the function returns exactly the
embedded integer with the separators removed; the first rule in the
ordered pattern list that matches determines the returned amount (shown
both structurally on `tryPatterns` and on a text matching two rules,
where the earlier, more specific rule's capture wins); and a rule whose
captured digits fail integer parsing is skipped in favor of later rules
rather than aborting extraction. -/
theorem C6_extraction_rules (g : List Char) (gs : List (List Char))
    (h : NumOK g gs) :
    parse_donation_message
        (strL "donated **" ++ renderNum g gs ++ strL "** gold") =
      some (digitsVal (g ++ gs.join)) ∧
    parse_donation_message
        (strL "you have donated **" ++ renderNum g gs ++ strL "** gold") =
      some (digitsVal (g ++ gs.join)) ∧
    parse_donation_message
        (strL "donated " ++ renderNum g gs ++ strL " coins") =
      some (digitsVal (g ++ gs.join)) ∧
    parse_donation_message
        (strL "contributed " ++ renderNum g gs ++ strL " coins") =
      some (digitsVal (g ++ gs.join)) ∧
    parse_donation_message
        (strL "gave " ++ renderNum g gs ++ strL " coins") =
      some (digitsVal (g ++ gs.join)) ∧
    parse_donation_message (renderNum g gs ++ strL " coins donated") =
      some (digitsVal (g ++ gs.join)) ∧
    parse_donation_message (renderNum g gs ++ strL " coins to the clan") =
      some (digitsVal (g ++ gs.join)) ∧
    parse_donation_message (strL "clan donation of " ++ renderNum g gs) =
      some (digitsVal (g ++ gs.join)) ∧
    parse_donation_message
        (renderNum g gs ++ strL " coins added to clan") =
      some (digitsVal (g ++ gs.join)) ∧
    parse_donation_message (strL "clan treasury now " ++ renderNum g gs) =
      some (digitsVal (g ++ gs.join)) ∧
    parse_donation_message
        (renderNum g gs ++ strL " coins clan donation") =
      some (digitsVal (g ++ gs.join)) ∧
    parse_donation_message
        (strL "deposited " ++ renderNum g gs ++ strL " coins") =
      some (digitsVal (g ++ gs.join)) ∧
    parse_donation_message (renderNum g gs ++ strL " coins deposited") =
      some (digitsVal (g ++ gs.join)) ∧
    parse_donation_message (renderNum g gs ++ strL " rubies donated") =
      some (digitsVal (g ++ gs.join)) ∧
    parse_donation_message
        (strL "donated " ++ renderNum g gs ++ strL " rubies") =
      some (digitsVal (g ++ gs.join)) ∧
    parse_donation_message (renderNum g gs ++ strL " rubies to the clan") =
      some (digitsVal (g ++ gs.join)) ∧
    parse_donation_message
        (renderNum g gs ++ strL " rubies added to clan") =
      some (digitsVal (g ++ gs.join)) ∧
    (∀ (p : List Tok) (ps : List (List Tok)) (cl : List Char)
        (caps : List (List Char)) (a : Nat),
      searchToks p cl = some caps →
      parseIntOpt (stripCommas (caps.headD [])) = some a →
      tryPatterns (p :: ps) cl = some a) ∧
    (∀ (p : List Tok) (ps : List (List Tok)) (cl : List Char)
        (caps : List (List Char)),
      searchToks p cl = some caps →
      parseIntOpt (stripCommas (caps.headD [])) = none →
      tryPatterns (p :: ps) cl = tryPatterns ps cl) ∧
    parse_donation_message
        (strL "donated 50 coins and 70 coins donated") = some 50 := by
  refine ⟨extract1 g gs h, extract2 g gs h, extract3 g gs h,
    extract4 g gs h, extract5 g gs h, extract6 g gs h, extract7 g gs h,
    extract8 g gs h, extract9 g gs h, extract10 g gs h, extract11 g gs h,
    extract12 g gs h, extract13 g gs h, extract14 g gs h, extract15 g gs h,
    extract16 g gs h, extract17 g gs h, ?_, ?_, ?_⟩
  · exact fun p ps cl caps a hs hp =>
      tryPatterns_cons_some p ps cl caps a hs hp
  · exact fun p ps cl caps hs hp =>
      tryPatterns_cons_skip p ps cl caps hs hp
  · decide

/-- Witness for C6 at the grouped numeral `12,345`. -/
theorem C6_extraction_rules_witness :
    NumOK (strL "12") [strL "345"] ∧
    parse_donation_message
        (strL "donated **" ++ renderNum (strL "12") [strL "345"] ++
          strL "** gold") =
      some (digitsVal (strL "12" ++ ([strL "345"] : List (List Char)).join)) :=
  ⟨by unfold NumOK; decide,
   (C6_extraction_rules (strL "12") [strL "345"] (by unfold NumOK; decide)).1⟩
